import Mathlib

/-!
Verification of the frbpoppy survey-population detection pipeline
(`frbpoppy/survey_pop.py`) against its natural-language specification.

The embedding models float matrices as lists of rows of `Option ℚ`
(`none` plays the role of a NaN padding cell; real values are exact
rationals, so every comparison in the source is mirrored exactly).
External survey-model functions (`Survey.calc_*`) are pure per the spec
and are abstracted as function parameters.
-/

namespace Frbpop

/-- Ordering on matrix cells with `none` (NaN padding) treated as larger
than every real value: this is exactly the shape of a sorted burst-time
row, where real epochs ascend and NaN cells trail.  `ole a b` holds when
`a` may legally precede `b` in a sorted row. -/
def ole : Option ℚ → Option ℚ → Prop
  | some a, some b => a ≤ b
  | some _, none => True
  | none, some _ => False
  | none, none => True

instance : DecidableRel ole := fun a b => by
  cases a <;> cases b <;> simp [ole] <;> infer_instance

/-- A burst-time row as required by `fast_where` (source line 255:
"Essential that each row is sorted from low to high!"): ascending real
epochs followed only by NaN padding. -/
def rowSorted (row : List (Option ℚ)) : Prop := List.Pairwise ole row

instance (row : List (Option ℚ)) : Decidable (rowSorted row) :=
  List.instDecidablePairwise row

/-- Cell comparison `cell < v`: a NaN cell never compares less than a
real value (numpy comparisons with NaN are False). -/
def cellLt (c : Option ℚ) (v : ℚ) : Bool :=
  match c with
  | some t => decide (t < v)
  | none => false

/-- `np.searchsorted(row, v)` (default `side='left'`) on a sorted row:
the insertion index of `v`, i.e. the number of entries strictly below
`v`.  numpy implements this by binary search; on rows satisfying
`rowSorted` (the documented precondition of `fast_where`) the insertion
index equals this count, with NaN cells acting as `+inf`. -/
def searchsorted (row : List (Option ℚ)) (v : ℚ) : ℕ :=
  row.countP (fun c => cellLt c v)

/-- `fast_where(a, min_v, max_v)` (survey_pop.py lines 389-402).
Per row `i`: `left`/`right` are the two `searchsorted` insertion points,
rows with `left <= right` emit column indices `np.arange(left, right)`
(= `List.range' left (right - left)`), all concatenated in row order —
exactly how the source builds its `rows`/`cols` arrays with `np.repeat`
and the cumulative-sum loop.  The result is kept as the list of
`(row, col)` pairs (the source returns the two component arrays). -/
def fastWhere (a : List (List (Option ℚ))) (minV maxV : ℚ) : List (ℕ × ℕ) :=
  (a.enum.map (fun ir =>
    let l := searchsorted ir.2 minV
    let r := searchsorted ir.2 maxV
    if l ≤ r then (List.range' l (r - l)).map (fun j => (ir.1, j)) else [])).flatten

/-- Cell selector for the closed interval `[min_v, max_v]`: keeps the
index pair of an enumerated cell whose real value satisfies the
element-wise mask `(a >= min_v) & (a <= max_v)` (NaN cells fail both
comparisons). -/
def selectClosed (i : ℕ) (minV maxV : ℚ) (jc : ℕ × Option ℚ) : Option (ℕ × ℕ) :=
  match jc.2 with
  | some t => if minV ≤ t ∧ t ≤ maxV then some (i, jc.1) else none
  | none => none

/-- Cell selector for the half-open interval `[min_v, max_v)`. -/
def selectHalfOpen (i : ℕ) (minV maxV : ℚ) (jc : ℕ × Option ℚ) : Option (ℕ × ℕ) :=
  match jc.2 with
  | some t => if minV ≤ t ∧ t < maxV then some (i, jc.1) else none
  | none => none

/-- Brute-force index set from the claim and the `fast_where` docstring:
`np.where((a >= min_v) & (a <= max_v))`, i.e. all `(row, col)` pairs
whose cell holds a real value in the closed interval `[min_v, max_v]`
(NaN cells fail both comparisons), in row-major order. -/
def bruteWhere (a : List (List (Option ℚ))) (minV maxV : ℚ) : List (ℕ × ℕ) :=
  (a.enum.map (fun ir =>
    ir.2.enum.filterMap (selectClosed ir.1 minV maxV))).flatten

/-- Brute-force index set for the half-open interval `[min_v, max_v)`:
all `(row, col)` pairs whose cell holds a real value `t` with
`min_v ≤ t < max_v`, in row-major order. -/
def bruteWhereHalfOpen (a : List (List (Option ℚ))) (minV maxV : ℚ) :
    List (ℕ × ℕ) :=
  (a.enum.map (fun ir =>
    ir.2.enum.filterMap (selectHalfOpen ir.1 minV maxV))).flatten

/-- Half-open interval membership test for one cell (NaN cells fail). -/
def cellInHO (lo hi : ℚ) (c : Option ℚ) : Bool :=
  match c with
  | some t => decide (lo ≤ t) && decide (t < hi)
  | none => false

/-- One source row of the population frame, carrying the per-source
fields the one-off path reads (survey_pop.py lines 84-169).  `beamInt`
is the intensity `int_pro` drawn for this source by `survey.calc_beam`
(line 132) and `u` is the uniform draw `np.random.random()` of the
time-dilation step (line 160); attaching the draws per source turns the
stochastic pipeline into a deterministic function of them. -/
structure OneSrc where
  ra : ℚ
  dec : ℚ
  gl : ℚ
  gb : ℚ
  dm : ℚ
  z : ℚ
  distCo : ℚ
  sPeak : ℚ
  wEff : ℚ
  Tsys : ℚ
  beamInt : ℚ
  u : ℚ
  tScat : Option ℚ
deriving DecidableEq

/-- The external survey-model functions the one-off path consumes; the
spec (§2, §6) declares them pure, so they are abstracted as function
fields. -/
structure SurveyFns where
  inRegion : ℚ → ℚ → ℚ → ℚ → Bool
  calcFluence : ℚ → ℚ → ℚ
  calcSnr : ℚ → ℚ → ℚ → ℚ
  calcScint : ℚ → ℚ → ℚ → ℚ → ℚ → ℚ
  calcScat : ℚ → ℚ
  snrLimit : ℚ

/-- SNR of one source in `det_oneoffs`: peak flux attenuated by the beam
intensity (line 133), then `calc_snr(s_peak, w_eff, T_sys)` (line 140);
when scintillation is on, `calc_scint(t_scat, dist_co, gl, gb, snr)`
replaces it, computing `t_scat` lazily if absent (lines 143-151). -/
def oneOffSnr (sv : SurveyFns) (scin : Bool) (r : OneSrc) : ℚ :=
  let sPeak := r.sPeak * r.beamInt
  let snr := sv.calcSnr sPeak r.wEff r.Tsys
  if scin then
    sv.calcScint (r.tScat.getD (sv.calcScat r.dm)) r.distCo r.gl r.gb snr
  else snr

/-- Source-level counters of `Rates` touched by the one-off path.
Modelled from the spec: the `Rates` class (frbpoppy/rates.py, not under
src/) holds scalar counters `total, out_of_region, too_late, too_faint,
detected`, starting at zero. -/
structure OneOffCounts where
  tot : ℕ
  out : ℕ
  faint : ℕ
  late : ℕ
  det : ℕ
deriving DecidableEq

structure OneOffResult where
  counts : OneOffCounts
  frbs : List OneSrc

/-- The one-off pipeline: the region mask of `__init__` (lines 84-89,
`sr.out = np.sum(~region_mask)`), then `det_oneoffs` (lines 126-165):
the SNR mask `snr >= snr_limit` with
`faint = len(snr_mask) - count_nonzero(snr_mask)`, then the
time-dilation mask `np.random.random(len(z)) <= 1/(1+z)` with
`late = size(rate_mask) - count_nonzero(rate_mask)`, and finally
`det = len(frbs.snr)`.  `frbs.apply(mask)` keeps the rows where the mask
is True (spec §3: rows removed for per-source masks), i.e. `filter`.
`sr.tot = cosmic_pop.n_srcs` is the frame length for a generated
one-off population. -/
def runOneOff (sv : SurveyFns) (scin : Bool) (srcs : List OneSrc) :
    OneOffResult :=
  let s1 := srcs.filter (fun r => sv.inRegion r.ra r.dec r.gl r.gb)
  let out := srcs.countP (fun r => !(sv.inRegion r.ra r.dec r.gl r.gb))
  let s2 := s1.filter (fun r => sv.snrLimit ≤ oneOffSnr sv scin r)
  let faint := s1.length - s2.length
  let s3 := s2.filter (fun r => r.u ≤ 1 / (1 + r.z))
  let late := s2.length - s3.length
  { counts := ⟨srcs.length, out, faint, late, s3.length⟩, frbs := s3 }

/-- One source row of a repeating population with its 2-D per-burst
fields as NaN-padded rows (`none` = NaN).  The embedding fixes the fully
per-burst dimensionality (`w_arr`, `lum_bol` — hence `s_peak` and
`w_eff` — 2-D, `T_sys` 1-D): `det_repeaters` sizes its work arrays by
`sim_shape = frbs.time` exactly in this case (lines 203-204), and the
`ndim` branches of `_iter_pointings` (lines 288-334) then all resolve to
their 2-D arms. -/
structure RepSrc where
  ra : ℚ
  dec : ℚ
  gl : ℚ
  gb : ℚ
  Tsys : ℚ
  time : List (Option ℚ)
  sPeak : List (Option ℚ)
  wArr : List ℚ
  wEff : List ℚ
deriving DecidableEq, Inhabited

/-- External survey-model functions consumed by the repeater path (pure
per spec §2/§6).  `beamInt i ra dec` is the intensity
`survey.calc_beam(repeaters=True, ra, dec, ra_p, dec_p, lst)` of a
source at `(ra, dec)` during pointing `i`: the pointing centre
`ra_p[i % n_pointings], dec_p[i % n_pointings]` and the sidereal time
`lst[i]` (with its run-level random offset) are functions of `i` alone
(lines 212-225), so the pointing index subsumes them.  `none` models the
NaN intensity of a position outside the beam pattern (line 268).
Burst-level arguments flow through `Option ℚ` because NaN cells
propagate through the external numpy computations. -/
structure RepFns where
  inRegion : ℚ → ℚ → ℚ → ℚ → Bool
  beamInt : ℕ → ℚ → ℚ → Option ℚ
  calcFluence : Option ℚ → ℚ → Option ℚ
  calcSnr : Option ℚ → ℚ → ℚ → Option ℚ
  snrLimit : ℚ

/-- The fixed data the pointing loop of `det_repeaters` iterates over:
the (already region- and time-filtered) burst-time matrix and the
per-source/per-burst fields, plus `t_obs` in fractional days
(line 182). -/
structure RepCtx where
  fns : RepFns
  timeM : List (List (Option ℚ))
  raF : ℕ → ℚ
  decF : ℕ → ℚ
  TsysF : ℕ → ℚ
  wArrF : ℕ → ℕ → ℚ
  wEffF : ℕ → ℕ → ℚ
  tObs : ℚ

/-- Beam intensity of source `s` during pointing `i` (lines 260-265: the
coordinates passed to `calc_beam` are those of the sources selected by
`fast_where`, identical for every burst of one source). -/
def RepCtx.beam (c : RepCtx) (i s : ℕ) : Option ℚ :=
  c.fns.beamInt i (c.raF s) (c.decF s)

/-- The mutable per-run state threaded through the pointing loop: the
`s_peak`, `fluence`, `snr` matrices (mutated in place, lines 208-209 and
295-336), the two persistent per-source flags (lines 215-216), the
burst-level `pointing`/`faint` counters and the accumulated `keep`
index pairs (lines 219, 226-227, 280, 354). -/
structure RepState where
  sPeak : ℕ → ℕ → Option ℚ
  fluence : ℕ → ℕ → Option ℚ
  snr : ℕ → ℕ → Option ℚ
  notInPointing : ℕ → Bool
  notBright : ℕ → Bool
  brPointing : ℕ
  brFaint : ℕ
  keep : List (ℕ × ℕ)

/-- `t_ix = fast_where(frbs.time, t_min, t_max)` for pointing `i`
(line 257), with `times[i] = i * t_obs` (`np.arange(0, max_t + t_obs,
t_obs)`, line 186, in exact arithmetic). -/
def windowTIx (c : RepCtx) (i : ℕ) : List (ℕ × ℕ) :=
  fastWhere c.timeM ((i : ℚ) * c.tObs) (((i : ℚ) + 1) * c.tObs)

/-- `tp_ix`: the in-window bursts whose beam intensity is not NaN
(lines 268-271). -/
def windowTp (c : RepCtx) (i : ℕ) : List (ℕ × ℕ) :=
  (windowTIx c i).filter (fun p => (c.beam i p.1).isSome)

/-- `tnp_ix`: the in-window bursts outside the beam pattern (line 274). -/
def windowTnp (c : RepCtx) (i : ℕ) : List (ℕ × ℕ) :=
  (windowTIx c i).filter (fun p => !(c.beam i p.1).isSome)

/-- NaN-propagating product (`frbs.s_peak[s_peak_ix] *= int_pro`). -/
def omul : Option ℚ → Option ℚ → Option ℚ
  | some a, some b => some (a * b)
  | _, _ => none

/-- `snr > survey.snr_limit` for one burst cell (line 351); a NaN SNR
compares False. -/
def snrAbove (lim : ℚ) : Option ℚ → Bool
  | some v => decide (lim < v)
  | none => false

/-- One iteration of the pointing loop, `_iter_pointings` (lines
250-357) in the 2-D dimensionality of `RepSrc`:
  * `t_ix` from `fast_where`, split by beam membership into `tp_ix` /
    `tnp_ix` (lines 257-274);
  * `burst_rate.pointing += len(tnp_ix[0])` and
    `srcs_not_in_pointing[tp_unique] = False` (lines 280-281; clearing
    at `np.unique(tp_ix[0])` clears exactly the rows occurring in
    `tp_ix`);
  * `s_peak[tp_ix] *= int_pro; s_peak[tnp_ix] = nan` (lines 288-296:
    with 2-D `s_peak`, `s_peak_ix = tp_ix` and `not_ix = tnp_ix`);
  * `fluence[tp_ix] = calc_fluence(s_peak[tp_ix], w_eff[tp_ix])`
    (lines 298-311);
  * `snr[tp_ix] = calc_snr(s_peak[tp_ix], w_arr[tp_ix], T_sys)` with the
    1-D `T_sys` broadcast per burst (lines 313-336:
    `np.repeat(T_sys[tp_unique], n_bursts)` aligns with `tp_ix[0]`
    because `fast_where` emits rows grouped in ascending order, so the
    value used for pair `(s, j)` is `T_sys[s]`);
  * the scintillation branch (lines 339-348) is unreachable for
    repeating populations — the constructor raises first (lines 66-69) —
    and is omitted;
  * SNR threshold `snr > snr_limit`, `burst_rate.faint += len(tp_ix[0])
    - len(s_peak_ix[0])`, `srcs_not_bright[np.unique(...)] = False`, and
    the kept pairs are returned and extended onto `keep`
    (lines 350-357 and 226-227). -/
def iterPointing (c : RepCtx) (i : ℕ) (st : RepState) : RepState :=
  let tp := windowTp c i
  let tnp := windowTnp c i
  let sPeakNew : ℕ → ℕ → Option ℚ := fun s j =>
    if (s, j) ∈ tp then omul (st.sPeak s j) (c.beam i s)
    else if (s, j) ∈ tnp then none
    else st.sPeak s j
  let fluenceNew : ℕ → ℕ → Option ℚ := fun s j =>
    if (s, j) ∈ tp then c.fns.calcFluence (sPeakNew s j) (c.wEffF s j)
    else st.fluence s j
  let snrNew : ℕ → ℕ → Option ℚ := fun s j =>
    if (s, j) ∈ tp then c.fns.calcSnr (sPeakNew s j) (c.wArrF s j) (c.TsysF s)
    else st.snr s j
  let kept := tp.filter (fun p => snrAbove c.fns.snrLimit (snrNew p.1 p.2))
  { sPeak := sPeakNew
    fluence := fluenceNew
    snr := snrNew
    notInPointing := fun s =>
      if s ∈ tp.map Prod.fst then false else st.notInPointing s
    notBright := fun s =>
      if s ∈ kept.map Prod.fst then false else st.notBright s
    brPointing := st.brPointing + tnp.length
    brFaint := st.brFaint + (tp.length - kept.length)
    keep := st.keep ++ kept }

/-- Loop entry state: `fluence`/`snr` initialised to all-NaN matrices
(lines 208-209), both flags all-True (lines 215-216), counters zero and
`keep` empty (line 219). -/
def initRepState (sPeak0 : ℕ → ℕ → Option ℚ) : RepState :=
  { sPeak := sPeak0
    fluence := fun _ _ => none
    snr := fun _ _ => none
    notInPointing := fun _ => true
    notBright := fun _ => true
    brPointing := 0
    brFaint := 0
    keep := [] }

/-- State after the first `k` pointings of the loop (lines 220-227). -/
def loopState (c : RepCtx) (sPeak0 : ℕ → ℕ → Option ℚ) (k : ℕ) : RepState :=
  (List.range k).foldl (fun st i => iterPointing c i st) (initRepState sPeak0)

/-- Length of `times = np.arange(0, n_days + t_obs, t_obs)` (line 186)
in exact arithmetic: the number of naturals `i` with
`i * t_obs < n_days + t_obs`. -/
def nTimes (nDays tObs : ℚ) : ℕ := (⌈(nDays + tObs) / tObs⌉).toNat

/-- `times[-1]`, the end of the last pointing window: the survey-time
cutoff actually applied by `det_repeaters` (line 191). -/
def lastTime (nDays tObs : ℚ) : ℚ := ((nTimes nDays tObs - 1 : ℕ) : ℚ) * tObs

/-- One cell of `frbs.apply(time_mask)` with
`time_mask = frbs.time <= times[-1]` (lines 191-193): a real burst
epoch above the cutoff is invalidated to NaN; NaN cells fail the
comparison and stay NaN. -/
def maskCell (T : ℚ) : Option ℚ → Option ℚ
  | some t => if t ≤ T then some t else none
  | none => none

def timeMaskRow (T : ℚ) (row : List (Option ℚ)) : List (Option ℚ) :=
  row.map (maskCell T)

/-- `n_brst_pr_src` for one source: the non-NaN count of its time row
(line 80). -/
def nBursts (r : RepSrc) : ℕ := r.time.countP (fun c => c.isSome)

/-- Counters of one `Rates` record (burst- or source-level).  Modelled
from the spec: the `Rates` class (frbpoppy/rates.py, not under src/)
holds the scalar counters `total, out_of_region, too_late, too_faint,
out_of_pointing, detected`, starting at zero. -/
structure RepCounts where
  tot : ℕ
  late : ℕ
  out : ℕ
  pointing : ℕ
  faint : ℕ
  det : ℕ
deriving DecidableEq

structure RepResult where
  br : RepCounts
  sr : RepCounts
  state : RepState
  survivors : List RepSrc

/-- The in-region sources (`frbs.apply(region_mask)`, lines 85-86). -/
def regionKept (fns : RepFns) (srcs : List RepSrc) : List RepSrc :=
  srcs.filter (fun r => fns.inRegion r.ra r.dec r.gl r.gb)

/-- One source after the time mask: its burst epochs above the cutoff
invalidated to NaN (lines 191-193). -/
def maskSrc (T : ℚ) (r : RepSrc) : RepSrc :=
  { r with time := timeMaskRow T r.time }

/-- The sources surviving region and time masks: per spec §3/§4.2,
`frbs.apply` with a 2-D mask invalidates masked-out cells to NaN and
removes sources left with no True cell. -/
def repSurvivors (fns : RepFns) (srcs : List RepSrc) (T : ℚ) :
    List RepSrc :=
  ((regionKept fns srcs).map (maskSrc T)).filter
    (fun r => r.time.any (fun c => c.isSome))

/-- The loop context assembled from the surviving frame. -/
def repCtxOf (fns : RepFns) (survivors : List RepSrc) (tObs : ℚ) : RepCtx :=
  { fns := fns
    timeM := survivors.map (fun r => r.time)
    raF := fun s => (survivors.getD s default).ra
    decF := fun s => (survivors.getD s default).dec
    TsysF := fun s => (survivors.getD s default).Tsys
    wArrF := fun s j => (survivors.getD s default).wArr.getD j 0
    wEffF := fun s j => (survivors.getD s default).wEff.getD j 0
    tObs := tObs }

/-- The `s_peak` matrix of the surviving frame at loop entry. -/
def repSPeak0 (survivors : List RepSrc) : ℕ → ℕ → Option ℚ :=
  fun s j => (survivors.getD s default).sPeak.getD j none

/-- The repeater pipeline: the `__init__` bookkeeping for repeating
populations (lines 74-92) followed by `det_repeaters` (lines 171-248).

`__init__`: `br.tot = frbs.time.size` (the padded 2-D size),
`br.late += br.tot - sum(n_brst_pr_src)` (NaN pads),
`sr.late += sr.tot - len(n_brst_pr_src)` (zero for a generated
population, kept literally), the region mask with
`sr.out = sum(~mask)` and `br.out = sum(n_brst_pr_src[~mask])`.

`det_repeaters`: `t_obs = survey.t_obs / 86400` (line 182), the time
mask against `times[-1]` with
`br.late += sum(n_brst_pr_src - count_nonzero(time_mask, 1))` and
`sr.late += len(time_mask) - len(frbs.time)` (lines 191-197; per spec
§3, `frbs.apply` with a 2-D mask invalidates masked-out cells to NaN
and removes sources left with no True cell), then the pointing loop over
`max_n_pointings = len(times) - 1` windows, and the closing counter
updates (lines 229-242): `sr.pointing = sum(srcs_not_in_pointing)`,
`srcs_not_bright[srcs_not_in_pointing] = False`,
`sr.faint = sum(srcs_not_bright)`, `br.det = count_nonzero(snr_mask)`
(the number of distinct kept pairs) and
`sr.det = len(unique(keep[0]))`. -/
def runRepeater (fns : RepFns) (srcs : List RepSrc) (nDays tObsSec : ℚ) :
    RepResult :=
  let brTot := (srcs.map (fun r => r.time.length)).sum
  let srTot := srcs.length
  let brLate0 := brTot - (srcs.map nBursts).sum
  let srLate0 := srTot - srcs.length
  let srOut := srcs.countP (fun r => !(fns.inRegion r.ra r.dec r.gl r.gb))
  let brOut := ((srcs.filter
    (fun r => !(fns.inRegion r.ra r.dec r.gl r.gb))).map nBursts).sum
  let tObs := tObsSec / 86400
  let T := lastTime nDays tObs
  let brLateDrop := ((regionKept fns srcs).map (fun r =>
    nBursts r - (timeMaskRow T r.time).countP (fun c => c.isSome))).sum
  let survivors := repSurvivors fns srcs T
  let srLateDrop := (regionKept fns srcs).length - survivors.length
  let c := repCtxOf fns survivors tObs
  let nW := nTimes nDays tObs - 1
  let fin := loopState c (repSPeak0 survivors) nW
  let srPointing := (List.range survivors.length).countP
    (fun s => fin.notInPointing s)
  let srFaint := (List.range survivors.length).countP
    (fun s => fin.notBright s && !(fin.notInPointing s))
  { br := ⟨brTot, brLate0 + brLateDrop, brOut, fin.brPointing, fin.brFaint,
      fin.keep.dedup.length⟩
    sr := ⟨srTot, srLate0 + srLateDrop, srOut, srPointing, srFaint,
      ((fin.keep.map Prod.fst).dedup.length)⟩
    state := fin
    survivors := survivors }

/-- Throw-away concrete survey functions for witnesses: everything in
region, full beam intensity everywhere, `calc_snr` returning the
(non-NaN) peak flux itself, SNR limit 1. -/
def witnessFns : RepFns :=
  { inRegion := fun _ _ _ _ => true
    beamInt := fun _ _ _ => some 1
    calcFluence := fun s _ => s
    calcSnr := fun s _ _ => s
    snrLimit := 1 }

/-- A throw-away concrete pointing context for witnesses: one source at
the origin with a single burst at epoch 1/2, one-day pointings. -/
def witnessCtx : RepCtx :=
  { fns := witnessFns
    timeM := [[some (1 / 2), none]]
    raF := fun _ => 0
    decF := fun _ => 0
    TsysF := fun _ => 0
    wArrF := fun _ _ => 1
    wEffF := fun _ _ => 2
    tObs := 1 }

def witnessSPeak0 : ℕ → ℕ → Option ℚ := fun _ _ => some 2

/-- Does this cell hold a real burst epoch strictly after the cutoff? -/
def cellAfter (T : ℚ) (c : Option ℚ) : Bool :=
  match c with
  | some t => decide (T < t)
  | none => false

/-- A single repeating source with burst epochs `[0.5, 10.5, 50.5]` days
(scenario C of the spec). -/
def c5src : RepSrc :=
  ⟨0, 0, 0, 0, 0, [some (1 / 2), some (21 / 2), some (101 / 2)],
    [some 1, some 1, some 1], [1, 1, 1], [1, 1, 1]⟩

/-- The population frame handed to the constructor: a one-off frame or
a repeating frame (the 2-D `time` field exists exactly for repeating
populations). -/
inductive PopData
  | oneoff (srcs : List OneSrc)
  | rep (srcs : List RepSrc)

/-- The cosmic-population attributes `__init__` reads before
dispatching: whether `frbs.ra is None` (population never generated,
lines 36-39), the frame itself, and `n_days`. -/
structure CosmicPop where
  raIsNone : Bool
  data : PopData
  nDays : ℚ

/-- `cosmic_pop.repeaters`: for a generated population the flag agrees
with the shape of its frame. -/
def CosmicPop.repeaters (p : CosmicPop) : Bool :=
  match p.data with
  | .oneoff _ => false
  | .rep _ => true

inductive InitResult
  | oneoff (res : OneOffResult)
  | rep (res : RepResult)

/-- `SurveyPopulation.__init__` (lines 14-124) as a fallible function:
first the generation check (lines 36-43), then — before the region mask
(line 85) and everything after it — the rejection of scintillation for
repeating populations (lines 66-69: `if self.repeaters is True and scin
is True: raise ValueError(...)`); only then does the detection pipeline
run and produce a result.  `svOne`/`svRep` are the one-off and repeater
views of the same external survey object; `svNDays` is `survey.n_days`,
defaulted to the population's `n_days` when `None` (lines 62-63). -/
def surveyPopInit (pop : CosmicPop) (svOne : SurveyFns) (svRep : RepFns)
    (svNDays : Option ℚ) (tObsSec : ℚ) (scin : Bool) :
    Except String InitResult :=
  if pop.raIsNone then
    .error "You may have forgotten to generate your CosmicPopulation"
  else if pop.repeaters && scin then
    .error "Scintillation is currently not implemented for RepeaterPopulations"
  else
    match pop.data with
    | .oneoff srcs => .ok (.oneoff (runOneOff svOne scin srcs))
    | .rep srcs =>
        .ok (.rep (runRepeater svRep srcs (svNDays.getD pop.nDays) tObsSec))

/-- Throw-away concrete one-off survey functions for witnesses. -/
def witnessSvFns : SurveyFns :=
  { inRegion := fun _ _ _ _ => true
    calcFluence := fun s _ => s
    calcSnr := fun s _ _ => s
    calcScint := fun _ _ _ _ snr => snr
    calcScat := fun d => d
    snrLimit := 1 }

/-- The source-level `Rates` record as `calc_rates` reads and writes it.
Modelled from the spec (§3, §4.4): the `Rates` class itself lives in
frbpoppy/rates.py, outside src/. -/
structure RatesR where
  tot : ℕ
  late : ℕ
  faint : ℕ
  det : ℕ
  days : ℚ
  vol : ℚ
  fArea : ℚ
  rate : ℚ
deriving DecidableEq

/-- Modelled from the spec: `Rates.scale_by_area` (frbpoppy/rates.py,
not under src/) multiplies the final detection rate by the stored area
scaling factor (§4.4: "Applied by multiplying the final rate by this
factor"). -/
def RatesR.scaleByArea (r : RatesR) : RatesR :=
  { r with rate := r.rate * r.fArea }

/-- `calc_rates` (survey_pop.py lines 359-386) acting on the
source-level record.  `np.pi` is modelled as a rational parameter `pi`
(the source uses the float constant; nothing proved depends on its
value), `365.25` is the exact rational `1461/4`, and
`area_sky = 4*pi*(180/pi)^2` (line 362).  The local
`f_area = beam_size * tot`, divided by `inside * area_sky` when
`inside = det + late + faint > 0` and reset to 1 otherwise
(lines 363-369); `days` and `vol` are always stored (lines 372-375);
the factor is stored on the record and applied — `scale_by_area()` —
only when the population is not repeating (lines 383-386).  The
symmetric repeater block (lines 377-381) only sets the burst-level
`days`/`name`/`vol` fields and never touches any area factor. -/
def calcRates (pi beamSize volCoMax nDays : ℚ) (repeaters : Bool)
    (sr : RatesR) : RatesR :=
  let areaSky := 4 * pi * (180 / pi) ^ 2
  let inside := sr.det + sr.late + sr.faint
  let fArea := if 0 < inside
    then beamSize * (sr.tot : ℚ) / ((inside : ℚ) * areaSky)
    else 1
  let sr1 := { sr with
    days := nDays
    vol := (sr.tot : ℚ) / (volCoMax * ((1461 / 4) / nDays)) }
  if repeaters then sr1 else ({ sr1 with fArea := fArea }).scaleByArea

/-- Concrete context for the C4 counterexample: one source, one burst at
epoch 1/2, full beam intensity, `calc_snr` returning its *width*
argument, intrinsic width `w_arr = 1` everywhere but effective width
`w_eff = 2`. -/
def c4ctx : RepCtx :=
  { fns :=
      { inRegion := fun _ _ _ _ => true
        beamInt := fun _ _ _ => some 1
        calcFluence := fun s _ => s
        calcSnr := fun _ w _ => some w
        snrLimit := 0 }
    timeM := [[some (1 / 2)]]
    raF := fun _ => 0
    decF := fun _ => 0
    TsysF := fun _ => 0
    wArrF := fun _ _ => 1
    wEffF := fun _ _ => 2
    tObs := 1 }

def c4sPeak0 : ℕ → ℕ → Option ℚ := fun _ _ => some 3

/-- A one-off source whose SNR under `witnessSvFns` is exactly the SNR
limit 1: peak flux 1, beam intensity 1. -/
def c10r : OneSrc := ⟨0, 0, 0, 0, 0, 0, 0, 1, 1, 1, 1, 0, none⟩

/-- Loop state whose `s_peak` makes the single burst's SNR exactly the
limit 1 under `witnessCtx`. -/
def c10st : RepState := initRepState (fun _ _ => some 1)

/-- Is this cell compatible with exact window accounting: a NaN pad, or
a real epoch that is nonnegative and not exactly on the final window
boundary `times[-1]`?  (A burst exactly at `times[-1]` survives the
`<=` time mask yet belongs to no half-open window, and a negative epoch
precedes every window.) -/
def cellOk (T : ℚ) (c : Option ℚ) : Bool :=
  match c with
  | some t => decide (0 ≤ t) && !(decide (t = T))
  | none => true

/-- An out-of-region source with one burst: `burst_total = 1` but every
loss/detection counter except `out_of_region` stays 0. -/
def c3outSrc : RepSrc := ⟨0, 0, 0, 0, 0, [some (1 / 2)], [some 1], [1], [1]⟩

/-- Survey functions rejecting every sky position. -/
def c3outFns : RepFns :=
  { inRegion := fun _ _ _ _ => false
    beamInt := fun _ _ _ => some 1
    calcFluence := fun s _ => s
    calcSnr := fun s _ _ => s
    snrLimit := 1 }

/-- A well-behaved in-region repeating source: bursts at 1/2 and 3/2
days, one NaN pad. -/
def c3inSrc : RepSrc :=
  ⟨0, 0, 0, 0, 0, [some (1 / 2), some (3 / 2), none],
    [some 1, some 1, some 1], [1, 1, 1], [1, 1, 1]⟩

attribute [local semireducible] Rat.mul Rat.add Rat.sub Rat.inv

lemma searchsorted_tail_zero {t v : ℚ} {row : List (Option ℚ)}
    (hc : ∀ x ∈ row, ole (some t) x) (hv : v ≤ t) : searchsorted row v = 0 := by
  rw [searchsorted, List.countP_eq_zero]
  intro x hx
  have hx' := hc x hx
  cases x with
  | none => simp [cellLt]
  | some u =>
    simp only [ole] at hx'
    simp only [cellLt, decide_eq_true_eq]
    exact not_lt.mpr (le_trans hv hx')

lemma enumFrom_filterMap_eq_range' (i : ℕ) (lo hi : ℚ) (hlohi : lo ≤ hi) :
    ∀ row : List (Option ℚ), rowSorted row → ∀ n : ℕ,
      (row.enumFrom n).filterMap (selectHalfOpen i lo hi)
      = (List.range' (n + searchsorted row lo)
          (searchsorted row hi - searchsorted row lo)).map (fun j => (i, j)) := by
  intro row
  induction row with
  | nil => intro _ n; simp [searchsorted]
  | cons c row ih =>
    intro hs n
    rw [rowSorted, List.pairwise_cons] at hs
    obtain ⟨hc, hrow⟩ := hs
    have ihr := ih hrow
    cases c with
    | none =>
      have hnil : ∀ x ∈ row, x = (none : Option ℚ) := by
        intro x hx
        have := hc x hx
        cases x with
        | none => rfl
        | some u => exact absurd this (by simp [ole])
      have hz : ∀ v : ℚ, searchsorted row v = 0 := by
        intro v
        rw [searchsorted, List.countP_eq_zero]
        intro x hx
        rw [hnil x hx]
        simp [cellLt]
      have hz' : ∀ v : ℚ, searchsorted (none :: row) v = 0 := by
        intro v
        rw [searchsorted, List.countP_eq_zero]
        intro x hx
        rcases List.mem_cons.mp hx with h | h
        · subst h; simp [cellLt]
        · rw [hnil x h]; simp [cellLt]
      rw [List.enumFrom_cons]
      rw [List.filterMap_cons_none (by simp [selectHalfOpen])]
      rw [ihr (n + 1), hz lo, hz hi, hz' lo, hz' hi]
      simp
    | some t =>
      have hlt_cons : ∀ v : ℚ, searchsorted (some t :: row) v
          = (if t < v then 1 else 0) + searchsorted row v := by
        intro v
        simp only [searchsorted, List.countP_cons, cellLt]
        by_cases h : t < v
        · simp [h, Nat.add_comm]
        · simp [h]
      rcases lt_or_le t lo with hlt | hge
      · rw [List.enumFrom_cons]
        rw [List.filterMap_cons_none (by simp [selectHalfOpen, not_le.mpr hlt])]
        rw [ihr (n + 1), hlt_cons lo, hlt_cons hi, if_pos hlt,
          if_pos (lt_of_lt_of_le hlt hlohi)]
        congr 2
        · omega
        · omega
      · have hl0 : searchsorted row lo = 0 := searchsorted_tail_zero hc hge
        rcases lt_or_le t hi with hthi | hhit
        · rw [List.enumFrom_cons]
          have hfa : selectHalfOpen i lo hi (n, some t) = some (i, n) := by
            simp [selectHalfOpen, hge, hthi]
          rw [List.filterMap_cons_some hfa]
          rw [ihr (n + 1), hlt_cons lo, hlt_cons hi, if_neg (not_lt.mpr hge),
            if_pos hthi, hl0]
          have h2 : 1 + searchsorted row hi - (0 + 0) = searchsorted row hi + 1 := by
            omega
          rw [h2]
          have h3 : n + (0 + 0) = n := by omega
          rw [h3, List.range'_succ]
          simp
        · have hh0 : searchsorted row hi = 0 := searchsorted_tail_zero hc hhit
          rw [List.enumFrom_cons]
          rw [List.filterMap_cons_none (by simp [selectHalfOpen, not_lt.mpr hhit])]
          rw [ihr (n + 1), hl0, hh0, hlt_cons lo, hlt_cons hi,
            if_neg (not_lt.mpr hge), if_neg (not_lt.mpr hhit)]
          simp [hl0, hh0]

/-- Core `fast_where` equivalence, shared by the claims below: on matrices
whose rows are sorted ascending with trailing NaNs (the documented
precondition, survey_pop.py line 255), `fast_where` computes exactly the
brute-force index pairs of the half-open interval `[min_v, max_v)`. -/
lemma fastWhere_eq_bruteWhereHalfOpen (a : List (List (Option ℚ))) (minV maxV : ℚ)
    (hs : ∀ row ∈ a, rowSorted row) :
    fastWhere a minV maxV = bruteWhereHalfOpen a minV maxV := by
  have hmono : ∀ row : List (Option ℚ), maxV < minV →
      searchsorted row maxV ≤ searchsorted row minV := by
    intro row h
    apply List.countP_mono_left
    intro c _ hc
    cases c with
    | none => simp [cellLt] at hc
    | some u =>
      simp only [cellLt, decide_eq_true_eq] at hc ⊢
      exact lt_trans hc h
  rcases le_or_lt minV maxV with hlh | hlh
  · unfold fastWhere bruteWhereHalfOpen
    congr 1
    apply List.map_congr_left
    intro ir hir
    have hrow : rowSorted ir.2 := hs _ (List.snd_mem_of_mem_enum hir)
    have hm : searchsorted ir.2 minV ≤ searchsorted ir.2 maxV := by
      apply List.countP_mono_left
      intro c _ hc
      cases c with
      | none => simp [cellLt] at hc
      | some u =>
        simp only [cellLt, decide_eq_true_eq] at hc ⊢
        exact lt_of_lt_of_le hc hlh
    have hmain := enumFrom_filterMap_eq_range' ir.1 minV maxV hlh ir.2 hrow 0
    rw [List.enum_eq_enumFrom]
    dsimp only
    rw [if_pos hm, hmain]
    simp
  · have h1 : fastWhere a minV maxV = [] := by
      unfold fastWhere
      rw [List.flatten_eq_nil_iff]
      intro l hl
      rw [List.mem_map] at hl
      obtain ⟨ir, _, rfl⟩ := hl
      dsimp only
      by_cases hlr : searchsorted ir.2 minV ≤ searchsorted ir.2 maxV
      · rw [if_pos hlr]
        have hba := hmono ir.2 hlh
        have hz : searchsorted ir.2 maxV - searchsorted ir.2 minV = 0 := by omega
        rw [hz]
        simp
      · rw [if_neg hlr]
    have h2 : bruteWhereHalfOpen a minV maxV = [] := by
      unfold bruteWhereHalfOpen
      rw [List.flatten_eq_nil_iff]
      intro l hl
      rw [List.mem_map] at hl
      obtain ⟨ir, _, rfl⟩ := hl
      rw [List.filterMap_eq_nil_iff]
      intro jc _
      rw [selectHalfOpen]
      cases hjc : jc.2 with
      | none => simp
      | some t =>
        simp only []
        rw [if_neg]
        intro hcond
        exact absurd (lt_of_le_of_lt hcond.1 hcond.2) (not_lt.mpr hlh.le)
    rw [h1, h2]

lemma selectHalfOpen_isSome (i : ℕ) (lo hi : ℚ) (jc : ℕ × Option ℚ) :
    (selectHalfOpen i lo hi jc).isSome = cellInHO lo hi jc.2 := by
  rcases jc with ⟨j, c⟩
  cases c with
  | none => rfl
  | some t =>
    by_cases h : lo ≤ t ∧ t < hi
    · simp [selectHalfOpen, cellInHO, h.1, h.2]
    · rw [Decidable.not_and_iff_or_not] at h
      rcases h with h | h <;> simp [selectHalfOpen, cellInHO, h]

lemma countP_enumFrom (q : Option ℚ → Bool) (row : List (Option ℚ)) :
    ∀ n : ℕ, (row.enumFrom n).countP (fun jc => q jc.2) = row.countP q := by
  induction row with
  | nil => intro n; simp
  | cons c row ih =>
    intro n
    rw [List.enumFrom_cons]
    simp only [List.countP_cons, ih (n + 1)]

lemma length_row_filterMap (i : ℕ) (lo hi : ℚ) (row : List (Option ℚ)) :
    (row.enum.filterMap (selectHalfOpen i lo hi)).length
      = row.countP (cellInHO lo hi) := by
  rw [List.length_filterMap_eq_countP, List.enum_eq_enumFrom]
  rw [show (fun a => (selectHalfOpen i lo hi a).isSome)
      = (fun jc : ℕ × Option ℚ => cellInHO lo hi jc.2) from
    funext (selectHalfOpen_isSome i lo hi)]
  exact countP_enumFrom _ row 0

lemma enum_map_snd_fun {α β : Type _} (l : List α) (h : α → β) :
    l.enum.map (fun ir => h ir.2) = l.map h := by
  rw [show (fun ir : ℕ × α => h ir.2) = h ∘ Prod.snd from rfl, ← List.map_map,
    List.enum_map_snd]

lemma length_bruteWhereHalfOpen (a : List (List (Option ℚ))) (lo hi : ℚ) :
    (bruteWhereHalfOpen a lo hi).length
      = (a.map (fun row => row.countP (cellInHO lo hi))).sum := by
  unfold bruteWhereHalfOpen
  rw [List.length_flatten, List.map_map]
  rw [List.map_congr_left (fun ir _ => by
    show (ir.2.enum.filterMap (selectHalfOpen ir.1 lo hi)).length
        = (fun jc : ℕ × List (Option ℚ) => jc.2.countP (cellInHO lo hi)) ir
    exact length_row_filterMap ir.1 lo hi ir.2)]
  rw [enum_map_snd_fun]

lemma mem_bruteWhereHalfOpen {a : List (List (Option ℚ))} {lo hi : ℚ}
    {p : ℕ × ℕ} :
    p ∈ bruteWhereHalfOpen a lo hi ↔
      ∃ row t, a[p.1]? = some row ∧ row[p.2]? = some (some t) ∧
        lo ≤ t ∧ t < hi := by
  unfold bruteWhereHalfOpen
  rw [List.mem_flatten]
  constructor
  · rintro ⟨l, hl, hpl⟩
    rw [List.mem_map] at hl
    obtain ⟨ir, hir, rfl⟩ := hl
    rw [List.mem_filterMap] at hpl
    obtain ⟨⟨j, c⟩, hjc, hsel⟩ := hpl
    cases c with
    | none => simp [selectHalfOpen] at hsel
    | some t =>
      simp only [selectHalfOpen] at hsel
      split at hsel
      · next hcond =>
        rw [Option.some_inj] at hsel
        subst hsel
        refine ⟨ir.2, t, ?_, ?_, hcond.1, hcond.2⟩
        · exact List.mem_enum_iff_getElem?.mp hir
        · exact List.mk_mem_enum_iff_getElem?.mp hjc
      · exact absurd hsel (by simp)
  · rintro ⟨row, t, hrow, hcell, h1, h2⟩
    refine ⟨row.enum.filterMap (selectHalfOpen p.1 lo hi), ?_, ?_⟩
    · rw [List.mem_map]
      exact ⟨(p.1, row), List.mem_enum_iff_getElem?.mpr hrow, rfl⟩
    · rw [List.mem_filterMap]
      refine ⟨(p.2, some t), List.mk_mem_enum_iff_getElem?.mpr hcell, ?_⟩
      simp [selectHalfOpen, h1, h2]

lemma pairwise_fst_lt_enumFrom {α : Type _} (l : List α) :
    ∀ n : ℕ, (l.enumFrom n).Pairwise (fun x y => x.1 < y.1) := by
  induction l with
  | nil => intro n; simp
  | cons c l ih =>
    intro n
    rw [List.enumFrom_cons, List.pairwise_cons]
    refine ⟨fun x hx => ?_, ih (n + 1)⟩
    have := List.le_fst_of_mem_enumFrom hx
    omega

lemma nodup_fastWhere (a : List (List (Option ℚ))) (lo hi : ℚ) :
    (fastWhere a lo hi).Nodup := by
  unfold fastWhere
  rw [List.nodup_flatten]
  constructor
  · intro l hl
    rw [List.mem_map] at hl
    obtain ⟨ir, _, rfl⟩ := hl
    dsimp only
    split
    · exact (List.nodup_range' _ _).map (fun x y hxy => by
        simpa using congrArg Prod.snd hxy)
    · exact List.nodup_nil
  · rw [List.pairwise_map]
    have hfst : ∀ (ir : ℕ × List (Option ℚ)) (p : ℕ × ℕ),
        p ∈ (fun ir : ℕ × List (Option ℚ) =>
          let l := searchsorted ir.2 lo
          let r := searchsorted ir.2 hi
          if l ≤ r then (List.range' l (r - l)).map (fun j => (ir.1, j))
          else []) ir → p.1 = ir.1 := by
      intro ir p hp
      dsimp only at hp
      split at hp
      · rw [List.mem_map] at hp
        obtain ⟨j, _, rfl⟩ := hp
        rfl
      · exact absurd hp (List.not_mem_nil p)
    have := pairwise_fst_lt_enumFrom a 0
    rw [← List.enum_eq_enumFrom] at this
    refine this.imp ?_
    intro x y hxy
    rw [List.disjoint_left]
    intro p hpx hpy
    have h1 := hfst x p hpx
    have h2 := hfst y p hpy
    omega

/-- C1 counterexample: the claim fails as stated.  On the sorted one-cell
matrix `[[5.0]]` with interval `[0, 5]`, the brute-force closed-interval
mask `(a >= 0) & (a <= 5)` selects `(0, 0)` (the cell equals the upper
endpoint), but `fast_where` — which uses `np.searchsorted` with the
default `side='left'` for the upper bound — returns nothing. -/
theorem C1_fastWhere_counterexample :
    fastWhere [[some 5]] 0 5 ≠ bruteWhere [[some 5]] 0 5 ∧
    fastWhere [[some 5]] 0 5 = [] ∧ bruteWhere [[some 5]] 0 5 = [(0, 0)] := by
  refine ⟨?_, by decide, by decide⟩
  decide

/-- C1 (amended): for every 2-D matrix whose rows are each sorted
ascending with trailing NaNs, and every interval `[min, max]`,
`fast_where` returns exactly the set of (row, column) index pairs that a
brute-force element-wise mask over the half-open interval
(`value >= min` and `value < max`) would select — values equal to `max`
are excluded, not included; empty rows and rows fully inside the
interval are handled alike. -/
theorem C1_fastWhere_equiv (a : List (List (Option ℚ))) (minV maxV : ℚ)
    (hs : ∀ row ∈ a, rowSorted row) :
    fastWhere a minV maxV = bruteWhereHalfOpen a minV maxV :=
  fastWhere_eq_bruteWhereHalfOpen a minV maxV hs

/-- Witness for `C1_fastWhere_equiv` at a concrete sorted matrix with an
empty row, a row partially inside, and a row fully inside the interval. -/
theorem C1_fastWhere_equiv_witness :
    (∀ row ∈ [[some (1 : ℚ), some 3, none], [none],
        [some 2, some 3, some 3]], rowSorted row) ∧
    fastWhere [[some 1, some 3, none], [none],
        [some 2, some 3, some 3]] 2 4
      = bruteWhereHalfOpen [[some 1, some 3, none], [none],
          [some 2, some 3, some 3]] 2 4 :=
  ⟨by decide, C1_fastWhere_equiv _ 2 4 (by decide)⟩

lemma countP_not_add_countP {α : Type _} (p : α → Bool) (l : List α) :
    l.countP (fun a => !(p a)) + l.countP p = l.length := by
  induction l with
  | nil => simp
  | cons c l ih =>
    rw [List.countP_cons, List.countP_cons]
    cases h : p c <;> simp [h] <;> omega

lemma countP_not_add_length_filter {α : Type _} (p : α → Bool) (l : List α) :
    l.countP (fun a => !(p a)) + (l.filter p).length = l.length := by
  rw [← List.countP_eq_length_filter]
  exact countP_not_add_countP p l

/-- C2: for every non-repeating population (any source list, any survey
functions, scintillation on or off), after the full one-off pipeline the
source-level counters satisfy
`total == out_of_region + too_late + too_faint + detected` exactly. -/
theorem C2_oneoff_conservation (sv : SurveyFns) (scin : Bool)
    (srcs : List OneSrc) :
    (runOneOff sv scin srcs).counts.tot
      = (runOneOff sv scin srcs).counts.out
        + (runOneOff sv scin srcs).counts.late
        + (runOneOff sv scin srcs).counts.faint
        + (runOneOff sv scin srcs).counts.det := by
  unfold runOneOff
  dsimp only
  have h0 := countP_not_add_length_filter
    (fun r => sv.inRegion r.ra r.dec r.gl r.gb) srcs
  have h1 := List.length_filter_le
    (fun r => decide (sv.snrLimit ≤ oneOffSnr sv scin r))
    (srcs.filter (fun r => sv.inRegion r.ra r.dec r.gl r.gb))
  have h2 := List.length_filter_le (fun r => decide (r.u ≤ 1 / (1 + r.z)))
    ((srcs.filter (fun r => sv.inRegion r.ra r.dec r.gl r.gb)).filter
      (fun r => decide (sv.snrLimit ≤ oneOffSnr sv scin r)))
  omega

/-- C6: in the one-off path, after SNR thresholding each surviving
source is kept if and only if its per-source uniform draw `u` satisfies
`u <= 1/(1+z)`, and the `too_late` counter equals the number of sources
removed by this step. -/
theorem C6_time_dilation (sv : SurveyFns) (scin : Bool)
    (srcs : List OneSrc) :
    (∀ r : OneSrc,
      (r ∈ (runOneOff sv scin srcs).frbs ↔
        r ∈ (srcs.filter (fun r => sv.inRegion r.ra r.dec r.gl r.gb)).filter
            (fun r => sv.snrLimit ≤ oneOffSnr sv scin r) ∧
          r.u ≤ 1 / (1 + r.z))) ∧
    (runOneOff sv scin srcs).counts.late
      = ((srcs.filter (fun r => sv.inRegion r.ra r.dec r.gl r.gb)).filter
          (fun r => sv.snrLimit ≤ oneOffSnr sv scin r)).countP
          (fun r => !(decide (r.u ≤ 1 / (1 + r.z)))) := by
  constructor
  · intro r
    unfold runOneOff
    dsimp only
    rw [List.mem_filter]
    simp
  · unfold runOneOff
    dsimp only
    have h0 := countP_not_add_length_filter
      (fun r => decide (r.u ≤ 1 / (1 + r.z)))
      ((srcs.filter (fun r => sv.inRegion r.ra r.dec r.gl r.gb)).filter
        (fun r => decide (sv.snrLimit ≤ oneOffSnr sv scin r)))
    omega

lemma loopState_zero (c : RepCtx) (sPeak0 : ℕ → ℕ → Option ℚ) :
    loopState c sPeak0 0 = initRepState sPeak0 := rfl

lemma loopState_succ (c : RepCtx) (sPeak0 : ℕ → ℕ → Option ℚ) (k : ℕ) :
    loopState c sPeak0 (k + 1) = iterPointing c k (loopState c sPeak0 k) := by
  unfold loopState
  rw [List.range_succ, List.foldl_append, List.foldl_cons, List.foldl_nil]

lemma iterPointing_notInPointing_mono (c : RepCtx) (i : ℕ) (st : RepState)
    (s : ℕ) (h : st.notInPointing s = false) :
    (iterPointing c i st).notInPointing s = false := by
  unfold iterPointing
  dsimp only
  split
  · rfl
  · exact h

lemma iterPointing_notBright_mono (c : RepCtx) (i : ℕ) (st : RepState)
    (s : ℕ) (h : st.notBright s = false) :
    (iterPointing c i st).notBright s = false := by
  unfold iterPointing
  dsimp only
  split
  · rfl
  · exact h

/-- C9: throughout the pointing loop the per-source flags
`srcs_not_in_pointing` and `srcs_not_bright` start True and are only
ever cleared to False, never set back: for every source `s` and every
pair of iteration counts `i <= j`, a flag that is False after `i`
iterations is still False after `j` iterations. -/
theorem C9_flags_monotone (c : RepCtx) (sPeak0 : ℕ → ℕ → Option ℚ)
    (s i j : ℕ) (hij : i ≤ j) :
    ((loopState c sPeak0 0).notInPointing s = true ∧
      (loopState c sPeak0 0).notBright s = true) ∧
    ((loopState c sPeak0 i).notInPointing s = false →
      (loopState c sPeak0 j).notInPointing s = false) ∧
    ((loopState c sPeak0 i).notBright s = false →
      (loopState c sPeak0 j).notBright s = false) := by
  refine ⟨⟨rfl, rfl⟩, ?_, ?_⟩
  · intro h
    induction j, hij using Nat.le_induction with
    | base => exact h
    | succ k hk ih =>
      rw [loopState_succ]
      exact iterPointing_notInPointing_mono c k _ s ih
  · intro h
    induction j, hij using Nat.le_induction with
    | base => exact h
    | succ k hk ih =>
      rw [loopState_succ]
      exact iterPointing_notBright_mono c k _ s ih

/-- Witness for `C9_flags_monotone` at the concrete context, with
iteration counts 1 ≤ 2. -/
theorem C9_flags_monotone_witness :
    (1 : ℕ) ≤ 2 ∧
    (((loopState witnessCtx witnessSPeak0 0).notInPointing 0 = true ∧
      (loopState witnessCtx witnessSPeak0 0).notBright 0 = true) ∧
    ((loopState witnessCtx witnessSPeak0 1).notInPointing 0 = false →
      (loopState witnessCtx witnessSPeak0 2).notInPointing 0 = false) ∧
    ((loopState witnessCtx witnessSPeak0 1).notBright 0 = false →
      (loopState witnessCtx witnessSPeak0 2).notBright 0 = false)) :=
  ⟨by decide, C9_flags_monotone witnessCtx witnessSPeak0 0 1 2 (by decide)⟩

lemma countP_split {α : Type _} (p q w : α → Bool) (l : List α)
    (hcov : ∀ a, p a = (q a || w a))
    (hdisj : ∀ a, ¬(q a = true ∧ w a = true)) :
    l.countP p = l.countP q + l.countP w := by
  induction l with
  | nil => simp
  | cons c l ih =>
    rw [List.countP_cons, List.countP_cons, List.countP_cons, ih]
    have h1 := hcov c
    have h2 := hdisj c
    cases hq : q c <;> cases hw : w c <;>
      rw [hq, hw] at h1 h2 <;> simp [h1] at h2 ⊢ <;> omega

lemma nTimes_eq (nDays tObs : ℚ) (ht : 0 < tObs) (hd : 0 < nDays) :
    nTimes nDays tObs = (⌈nDays / tObs⌉).toNat + 1 := by
  unfold nTimes
  rw [add_div, div_self (ne_of_gt ht), Int.ceil_add_one]
  have h1 : 0 < ⌈nDays / tObs⌉ := Int.ceil_pos.mpr (div_pos hd ht)
  omega

lemma lastTime_eq (nDays tObs : ℚ) (ht : 0 < tObs) (hd : 0 < nDays) :
    lastTime nDays tObs = (⌈nDays / tObs⌉ : ℚ) * tObs := by
  unfold lastTime
  rw [nTimes_eq nDays tObs ht hd, Nat.add_sub_cancel]
  have h1 : 0 < ⌈nDays / tObs⌉ := Int.ceil_pos.mpr (div_pos hd ht)
  have h2 : ((⌈nDays / tObs⌉.toNat : ℕ) : ℚ) = ((⌈nDays / tObs⌉ : ℤ) : ℚ) := by
    exact_mod_cast congrArg (fun z : ℤ => (z : ℚ)) (Int.toNat_of_nonneg h1.le)
  rw [h2]

lemma nDays_le_lastTime (nDays tObs : ℚ) (ht : 0 < tObs) (hd : 0 < nDays) :
    nDays ≤ lastTime nDays tObs := by
  rw [lastTime_eq nDays tObs ht hd]
  calc nDays = (nDays / tObs) * tObs := (div_mul_cancel₀ nDays (ne_of_gt ht)).symm
  _ ≤ (⌈nDays / tObs⌉ : ℚ) * tObs :=
      mul_le_mul_of_nonneg_right (Int.le_ceil (nDays / tObs)) ht.le

lemma maskCell_isSome_or (T : ℚ) (c : Option ℚ) :
    c.isSome = ((maskCell T c).isSome || cellAfter T c) := by
  cases c with
  | none => rfl
  | some t =>
    by_cases h : t ≤ T
    · simp [maskCell, cellAfter, h, not_lt.mpr h]
    · simp [maskCell, cellAfter, h, not_le.mp h]

lemma maskCell_not_both (T : ℚ) (c : Option ℚ) :
    ¬((maskCell T c).isSome = true ∧ cellAfter T c = true) := by
  cases c with
  | none => simp [maskCell, cellAfter]
  | some t =>
    by_cases h : t ≤ T
    · simp [maskCell, cellAfter, h, not_lt.mpr h]
    · simp [maskCell, cellAfter, h]

lemma nBursts_split (T : ℚ) (r : RepSrc) :
    nBursts r = (timeMaskRow T r.time).countP (fun c => c.isSome)
      + r.time.countP (cellAfter T) := by
  unfold nBursts timeMaskRow
  rw [List.countP_map]
  exact countP_split _ _ _ r.time (maskCell_isSome_or T)
    (maskCell_not_both T)

/-- C5 counterexample: the claim fails as stated.  With burst epochs
`[0.5, 10.5, 50.5]` days and a 20-day survey observed with 60-day
pointings (`t_obs = 5184000 s`), the 50.5-day burst lies strictly after
the survey duration yet is *not* removed before the pointing loop — the
cutoff actually applied is `times[-1] = 60` days, not `n_days = 20` — so
`too_late == 0`, not `1`, and the burst survives in the frame. -/
theorem C5_too_late_counterexample :
    (20 : ℚ) < 101 / 2 ∧
    (runRepeater witnessFns [c5src] 20 5184000).br.late = 0 ∧
    (runRepeater witnessFns [c5src] 20 5184000).survivors.map
        (fun r => r.time)
      = [[some (1 / 2), some (21 / 2), some (101 / 2)]] :=
  ⟨by decide, by decide, by decide⟩

/-- C5 (amended): the pre-loop removal cutoff is `times[-1]` — the end
of the last pointing window, `ceil(n_days/t_obs) * t_obs`, which is at
least `n_days` but may exceed it — not `n_days` itself.  Bursts strictly
after `times[-1]` are removed before the pointing loop starts and
counted burst-level as the raw dropped count (on top of the NaN-padding
count), and source-level every in-region source losing all its bursts
this way is counted; in particular the `[0.5, 10.5, 50.5]`/20-day
scenario yields `too_late == 1` whenever `times[-1] < 50.5`, e.g. with
one-day pointings. -/
theorem C5_too_late_cutoff (fns : RepFns) (srcs : List RepSrc)
    (nDays tObsSec : ℚ) (ht : 0 < tObsSec) (hd : 0 < nDays) :
    nDays ≤ lastTime nDays (tObsSec / 86400) ∧
    (runRepeater fns srcs nDays tObsSec).br.late
      = ((srcs.map (fun r => r.time.length)).sum - (srcs.map nBursts).sum)
        + ((srcs.filter (fun r => fns.inRegion r.ra r.dec r.gl r.gb)).map
            (fun r => r.time.countP
              (cellAfter (lastTime nDays (tObsSec / 86400))))).sum ∧
    (runRepeater fns srcs nDays tObsSec).sr.late
      = ((srcs.filter (fun r => fns.inRegion r.ra r.dec r.gl r.gb)).map
          (fun r => timeMaskRow (lastTime nDays (tObsSec / 86400)) r.time)).countP
          (fun row => !(row.any (fun c => c.isSome))) := by
  have ht' : 0 < tObsSec / 86400 := div_pos ht (by norm_num)
  refine ⟨nDays_le_lastTime nDays (tObsSec / 86400) ht' hd, ?_, ?_⟩
  · unfold runRepeater regionKept
    dsimp only
    congr 1
    apply congrArg
    apply List.map_congr_left
    intro r _
    have := nBursts_split (lastTime nDays (tObsSec / 86400)) r
    omega
  · unfold runRepeater repSurvivors regionKept maskSrc
    dsimp only
    have h0 := countP_not_add_length_filter
      (fun r : RepSrc => r.time.any (fun c => c.isSome))
      ((srcs.filter (fun r => fns.inRegion r.ra r.dec r.gl r.gb)).map
        (fun r => { r with
          time := timeMaskRow (lastTime nDays (tObsSec / 86400)) r.time }))
    rw [List.length_map] at h0
    rw [List.countP_map] at h0
    rw [List.countP_map]
    simp only [Function.comp_def] at h0 ⊢
    omega

/-- Witness for `C5_too_late_cutoff`: the scenario-C source observed for
20 days with one-day pointings; the pipeline then does count
`too_late == 1` (only the 50.5-day burst is dropped). -/
theorem C5_too_late_cutoff_witness :
    ((0 : ℚ) < 86400 ∧ (0 : ℚ) < 20) ∧
    ((20 : ℚ) ≤ lastTime 20 (86400 / 86400) ∧
    (runRepeater witnessFns [c5src] 20 86400).br.late
      = (([c5src].map (fun r => r.time.length)).sum
          - ([c5src].map nBursts).sum)
        + ((([c5src].filter
              (fun r => witnessFns.inRegion r.ra r.dec r.gl r.gb)).map
            (fun r => r.time.countP
              (cellAfter (lastTime 20 (86400 / 86400))))).sum) ∧
    (runRepeater witnessFns [c5src] 20 86400).sr.late
      = (([c5src].filter
            (fun r => witnessFns.inRegion r.ra r.dec r.gl r.gb)).map
          (fun r => timeMaskRow (lastTime 20 (86400 / 86400)) r.time)).countP
          (fun row => !(row.any (fun c => c.isSome)))) ∧
    (runRepeater witnessFns [c5src] 20 86400).br.late = 1 :=
  ⟨⟨by decide, by decide⟩,
    C5_too_late_cutoff witnessFns [c5src] 20 86400 (by decide) (by decide),
    by decide⟩

/-- C8: constructing a `SurveyPopulation` from a (generated) repeating
population with scintillation enabled fails with the descriptive
scintillation error before any region/flux/SNR filtering runs, and no
detection result of any kind is produced. -/
theorem C8_scin_repeaters_rejected (pop : CosmicPop) (svOne : SurveyFns)
    (svRep : RepFns) (svNDays : Option ℚ) (tObsSec : ℚ)
    (h1 : pop.raIsNone = false) (h2 : pop.repeaters = true) :
    surveyPopInit pop svOne svRep svNDays tObsSec true
      = .error "Scintillation is currently not implemented for RepeaterPopulations"
    ∧ ∀ res : InitResult,
        surveyPopInit pop svOne svRep svNDays tObsSec true ≠ .ok res := by
  have hmain : surveyPopInit pop svOne svRep svNDays tObsSec true
      = .error "Scintillation is currently not implemented for RepeaterPopulations" := by
    unfold surveyPopInit
    rw [h1, if_neg (by simp), if_pos (by simp [h2])]
  exact ⟨hmain, fun res h => by rw [hmain] at h; cases h⟩

/-- Witness for `C8_scin_repeaters_rejected`: a generated single-source
repeating population. -/
theorem C8_scin_repeaters_rejected_witness :
    ((⟨false, .rep [c5src], 20⟩ : CosmicPop).raIsNone = false ∧
      (⟨false, .rep [c5src], 20⟩ : CosmicPop).repeaters = true) ∧
    (surveyPopInit ⟨false, .rep [c5src], 20⟩ witnessSvFns witnessFns
        none 86400 true
      = .error "Scintillation is currently not implemented for RepeaterPopulations"
    ∧ ∀ res : InitResult,
        surveyPopInit ⟨false, .rep [c5src], 20⟩ witnessSvFns witnessFns
          none 86400 true ≠ .ok res) :=
  ⟨⟨rfl, rfl⟩,
    C8_scin_repeaters_rejected ⟨false, .rep [c5src], 20⟩ witnessSvFns
      witnessFns none 86400 rfl rfl⟩

/-- C7: the area-scaling factor equals
`beam_solid_angle * total / ((detected + too_late + too_faint) *
full_sky_solid_angle)` whenever `detected + too_late + too_faint > 0`,
equals exactly 1 when that sum is zero, and is stored and applied to the
source rate only for non-repeating populations: a repeater population's
record keeps its area factor and rate unchanged, while a one-off
population's rate is multiplied by the factor. -/
theorem C7_area_scaling (pi beamSize volCoMax nDays : ℚ) (sr : RatesR) :
    ((calcRates pi beamSize volCoMax nDays false sr).fArea
      = if 0 < sr.det + sr.late + sr.faint
        then beamSize * (sr.tot : ℚ)
          / (((sr.det + sr.late + sr.faint : ℕ) : ℚ)
              * (4 * pi * (180 / pi) ^ 2))
        else 1) ∧
    ((calcRates pi beamSize volCoMax nDays true sr).fArea = sr.fArea ∧
      (calcRates pi beamSize volCoMax nDays true sr).rate = sr.rate) ∧
    ((calcRates pi beamSize volCoMax nDays false sr).rate
      = sr.rate * (calcRates pi beamSize volCoMax nDays false sr).fArea) := by
  refine ⟨?_, ⟨?_, ?_⟩, ?_⟩ <;>
    simp only [calcRates, RatesR.scaleByArea, if_neg Bool.false_ne_true,
      if_pos rfl] <;> rfl

lemma mem_windowTIx {c : RepCtx} (hs : ∀ row ∈ c.timeM, rowSorted row)
    {i : ℕ} {p : ℕ × ℕ} :
    p ∈ windowTIx c i ↔
      ∃ row t, c.timeM[p.1]? = some row ∧ row[p.2]? = some (some t) ∧
        (i : ℚ) * c.tObs ≤ t ∧ t < ((i : ℚ) + 1) * c.tObs := by
  unfold windowTIx
  rw [fastWhere_eq_bruteWhereHalfOpen _ _ _ hs]
  exact mem_bruteWhereHalfOpen

lemma windowTIx_disjoint {c : RepCtx} (hs : ∀ row ∈ c.timeM, rowSorted row)
    (ht : 0 < c.tObs) {i i' : ℕ} (hne : i ≠ i') {p : ℕ × ℕ}
    (hp : p ∈ windowTIx c i) : p ∉ windowTIx c i' := by
  intro hp'
  rw [mem_windowTIx hs] at hp hp'
  obtain ⟨row, t, hrow, hcell, h1, h2⟩ := hp
  obtain ⟨row', t', hrow', hcell', h1', h2'⟩ := hp'
  rw [hrow] at hrow'
  rw [Option.some_inj] at hrow'
  subst hrow'
  rw [hcell] at hcell'
  rw [Option.some_inj, Option.some_inj] at hcell'
  subst hcell'
  have ha : (i : ℚ) < (i' : ℚ) + 1 :=
    (mul_lt_mul_right ht).mp (lt_of_le_of_lt h1 h2')
  have hb : (i' : ℚ) < (i : ℚ) + 1 :=
    (mul_lt_mul_right ht).mp (lt_of_le_of_lt h1' h2)
  have ha' : i < i' + 1 := by exact_mod_cast ha
  have hb' : i' < i + 1 := by exact_mod_cast hb
  omega

lemma not_mem_windowTp {c : RepCtx} {i : ℕ} {p : ℕ × ℕ}
    (h : p ∉ windowTIx c i) : p ∉ windowTp c i := by
  intro hp
  exact h (List.mem_of_mem_filter hp)

lemma not_mem_windowTnp {c : RepCtx} {i : ℕ} {p : ℕ × ℕ}
    (h : p ∉ windowTIx c i) : p ∉ windowTnp c i := by
  intro hp
  exact h (List.mem_of_mem_filter hp)

lemma iterPointing_sPeak_notmem (c : RepCtx) (i : ℕ) (st : RepState)
    (p : ℕ × ℕ) (h : p ∉ windowTIx c i) :
    (iterPointing c i st).sPeak p.1 p.2 = st.sPeak p.1 p.2 := by
  unfold iterPointing
  dsimp only
  rw [if_neg (by rw [Prod.mk.eta]; exact not_mem_windowTp h),
    if_neg (by rw [Prod.mk.eta]; exact not_mem_windowTnp h)]

lemma iterPointing_snr_notmem (c : RepCtx) (i : ℕ) (st : RepState)
    (p : ℕ × ℕ) (h : p ∉ windowTp c i) :
    (iterPointing c i st).snr p.1 p.2 = st.snr p.1 p.2 := by
  unfold iterPointing
  dsimp only
  rw [if_neg (by rw [Prod.mk.eta]; exact h)]

lemma iterPointing_fluence_notmem (c : RepCtx) (i : ℕ) (st : RepState)
    (p : ℕ × ℕ) (h : p ∉ windowTp c i) :
    (iterPointing c i st).fluence p.1 p.2 = st.fluence p.1 p.2 := by
  unfold iterPointing
  dsimp only
  rw [if_neg (by rw [Prod.mk.eta]; exact h)]

lemma iterPointing_snr_mem (c : RepCtx) (i : ℕ) (st : RepState)
    (p : ℕ × ℕ) (h : p ∈ windowTp c i) :
    (iterPointing c i st).snr p.1 p.2
      = c.fns.calcSnr (omul (st.sPeak p.1 p.2) (c.beam i p.1))
          (c.wArrF p.1 p.2) (c.TsysF p.1) := by
  unfold iterPointing
  dsimp only
  rw [if_pos (by rw [Prod.mk.eta]; exact h),
    if_pos (by rw [Prod.mk.eta]; exact h)]

lemma iterPointing_fluence_mem (c : RepCtx) (i : ℕ) (st : RepState)
    (p : ℕ × ℕ) (h : p ∈ windowTp c i) :
    (iterPointing c i st).fluence p.1 p.2
      = c.fns.calcFluence (omul (st.sPeak p.1 p.2) (c.beam i p.1))
          (c.wEffF p.1 p.2) := by
  unfold iterPointing
  dsimp only
  rw [if_pos (by rw [Prod.mk.eta]; exact h),
    if_pos (by rw [Prod.mk.eta]; exact h)]

lemma loopState_sPeak_before {c : RepCtx} {sPeak0 : ℕ → ℕ → Option ℚ}
    (hs : ∀ row ∈ c.timeM, rowSorted row) (ht : 0 < c.tObs)
    {p : ℕ × ℕ} {i : ℕ} (hp : p ∈ windowTIx c i) :
    ∀ k, k ≤ i → (loopState c sPeak0 k).sPeak p.1 p.2 = sPeak0 p.1 p.2 := by
  intro k
  induction k with
  | zero => intro _; rfl
  | succ k ih =>
    intro hk
    rw [loopState_succ]
    rw [iterPointing_sPeak_notmem c k _ p
      (windowTIx_disjoint hs ht (by omega) hp)]
    exact ih (by omega)

lemma loopState_snr_after {c : RepCtx} {sPeak0 : ℕ → ℕ → Option ℚ}
    (hs : ∀ row ∈ c.timeM, rowSorted row) (ht : 0 < c.tObs)
    {p : ℕ × ℕ} {i : ℕ} (hp : p ∈ windowTp c i) :
    ∀ k, i < k → (loopState c sPeak0 k).snr p.1 p.2
      = c.fns.calcSnr (omul (sPeak0 p.1 p.2) (c.beam i p.1))
          (c.wArrF p.1 p.2) (c.TsysF p.1) := by
  intro k
  induction k with
  | zero => intro h; exact absurd h (by omega)
  | succ k ih =>
    intro hk
    rw [loopState_succ]
    rcases Nat.lt_succ_iff_lt_or_eq.mp hk with hik | hik
    · rw [iterPointing_snr_notmem c k _ p (not_mem_windowTp
        (windowTIx_disjoint hs ht (by omega) (List.mem_of_mem_filter hp)))]
      exact ih hik
    · subst hik
      rw [iterPointing_snr_mem c i _ p hp,
        loopState_sPeak_before hs ht (List.mem_of_mem_filter hp) i le_rfl]

lemma loopState_fluence_after {c : RepCtx} {sPeak0 : ℕ → ℕ → Option ℚ}
    (hs : ∀ row ∈ c.timeM, rowSorted row) (ht : 0 < c.tObs)
    {p : ℕ × ℕ} {i : ℕ} (hp : p ∈ windowTp c i) :
    ∀ k, i < k → (loopState c sPeak0 k).fluence p.1 p.2
      = c.fns.calcFluence (omul (sPeak0 p.1 p.2) (c.beam i p.1))
          (c.wEffF p.1 p.2) := by
  intro k
  induction k with
  | zero => intro h; exact absurd h (by omega)
  | succ k ih =>
    intro hk
    rw [loopState_succ]
    rcases Nat.lt_succ_iff_lt_or_eq.mp hk with hik | hik
    · rw [iterPointing_fluence_notmem c k _ p (not_mem_windowTp
        (windowTIx_disjoint hs ht (by omega) (List.mem_of_mem_filter hp)))]
      exact ih hik
    · subst hik
      rw [iterPointing_fluence_mem c i _ p hp,
        loopState_sPeak_before hs ht (List.mem_of_mem_filter hp) i le_rfl]

/-- C4 counterexample: the claim fails as stated.  Line 336 passes
`w_arr` — not the effective width `w_eff` — to `calc_snr`, so the SNR a
selected burst receives in the pointing loop is *not* what the one-off
call `calc_snr(s_peak, w_eff, T_sys)` (line 140) would produce: with
`calc_snr` returning its width argument, `w_arr = 1` and `w_eff = 2`,
the loop stores SNR `1` while the one-off expression gives `2`. -/
theorem C4_snr_counterexample :
    (0, 0) ∈ windowTp c4ctx 0 ∧
    (loopState c4ctx c4sPeak0 1).snr 0 0 = some 1 ∧
    c4ctx.fns.calcSnr (omul (c4sPeak0 0 0) (c4ctx.beam 0 0))
        (c4ctx.wEffF 0 0) (c4ctx.TsysF 0) = some 2 ∧
    (loopState c4ctx c4sPeak0 1).snr 0 0
      ≠ c4ctx.fns.calcSnr (omul (c4sPeak0 0 0) (c4ctx.beam 0 0))
          (c4ctx.wEffF 0 0) (c4ctx.TsysF 0) :=
  ⟨by decide, by decide, by decide, by decide⟩

/-- C4 (amended): in every pointing window of the repeater path, the SNR
of the selected bursts is computed from the beam-attenuated peak flux,
the *intrinsic* pulse width `w_arr`, and the system temperature —
`calc_snr(s_peak * int_pro, w_arr, T_sys)` — unlike the one-off path,
which passes the effective width `w_eff`; `w_eff` enters the repeater
window only through the fluence
(`calc_fluence(s_peak * int_pro, w_eff)`).  The value written in a
burst's window survives the remaining windows unchanged. -/
theorem C4_repeater_snr_args (c : RepCtx) (sPeak0 : ℕ → ℕ → Option ℚ)
    (nW : ℕ) (p : ℕ × ℕ) (i : ℕ)
    (hs : ∀ row ∈ c.timeM, rowSorted row) (ht : 0 < c.tObs)
    (hp : p ∈ windowTp c i) (hi : i < nW) :
    (loopState c sPeak0 nW).snr p.1 p.2
      = c.fns.calcSnr (omul (sPeak0 p.1 p.2) (c.beam i p.1))
          (c.wArrF p.1 p.2) (c.TsysF p.1) ∧
    (loopState c sPeak0 nW).fluence p.1 p.2
      = c.fns.calcFluence (omul (sPeak0 p.1 p.2) (c.beam i p.1))
          (c.wEffF p.1 p.2) :=
  ⟨loopState_snr_after hs ht hp nW hi,
    loopState_fluence_after hs ht hp nW hi⟩

/-- Witness for `C4_repeater_snr_args` at the concrete one-burst
context. -/
theorem C4_repeater_snr_args_witness :
    ((∀ row ∈ witnessCtx.timeM, rowSorted row) ∧ 0 < witnessCtx.tObs ∧
      (0, 0) ∈ windowTp witnessCtx 0 ∧ 0 < 1) ∧
    ((loopState witnessCtx witnessSPeak0 1).snr 0 0
      = witnessCtx.fns.calcSnr
          (omul (witnessSPeak0 0 0) (witnessCtx.beam 0 0))
          (witnessCtx.wArrF 0 0) (witnessCtx.TsysF 0) ∧
    (loopState witnessCtx witnessSPeak0 1).fluence 0 0
      = witnessCtx.fns.calcFluence
          (omul (witnessSPeak0 0 0) (witnessCtx.beam 0 0))
          (witnessCtx.wEffF 0 0)) :=
  ⟨⟨by decide, by decide, by decide, by decide⟩,
    C4_repeater_snr_args witnessCtx witnessSPeak0 1 (0, 0) 0
      (by decide) (by decide) (by decide) (by decide)⟩

lemma length_filter_lt_of_mem {α : Type _} (p : α → Bool) {l : List α}
    {a : α} (ha : a ∈ l) (hpa : p a = false) :
    (l.filter p).length < l.length := by
  have h0 := countP_not_add_countP p l
  have h1 : 0 < l.countP (fun x => !(p x)) :=
    List.countP_pos_iff.mpr ⟨a, ha, by rw [hpa]; rfl⟩
  rw [← List.countP_eq_length_filter]
  omega

/-- The `keep` list after one pointing: the previous pairs extended by
the in-beam pairs of this window passing the strict SNR test
(lines 350-357 and 226-227). -/
lemma iterPointing_keep_eq (c : RepCtx) (i : ℕ) (st : RepState) :
    (iterPointing c i st).keep
      = st.keep ++ (windowTp c i).filter
          (fun p => snrAbove c.fns.snrLimit
            ((iterPointing c i st).snr p.1 p.2)) := rfl

lemma iterPointing_brFaint_eq (c : RepCtx) (i : ℕ) (st : RepState) :
    (iterPointing c i st).brFaint
      = st.brFaint + ((windowTp c i).length - ((windowTp c i).filter
          (fun p => snrAbove c.fns.snrLimit
            ((iterPointing c i st).snr p.1 p.2))).length) := rfl

lemma iterPointing_brPointing_eq (c : RepCtx) (i : ℕ) (st : RepState) :
    (iterPointing c i st).brPointing
      = st.brPointing + (windowTnp c i).length := rfl

/-- C10: the two detection paths treat the exact-threshold case
differently.  A one-off source whose computed SNR equals the survey's
SNR limit exactly passes the `snr >= snr_limit` mask (line 154) and —
surviving the later draw — lands among the detected sources; a repeater
burst whose SNR equals the limit exactly fails the strict
`snr > snr_limit` mask (line 351), is left out of the kept pairs, and
strictly increases the burst-level `too_faint` counter. -/
theorem C10_threshold_asymmetry :
    (∀ (sv : SurveyFns) (scin : Bool) (srcs : List OneSrc) (r : OneSrc),
      r ∈ srcs → sv.inRegion r.ra r.dec r.gl r.gb = true →
      oneOffSnr sv scin r = sv.snrLimit → r.u ≤ 1 / (1 + r.z) →
      r ∈ (runOneOff sv scin srcs).frbs) ∧
    (∀ (c : RepCtx) (i : ℕ) (st : RepState) (p : ℕ × ℕ),
      p ∈ windowTp c i →
      c.fns.calcSnr (omul (st.sPeak p.1 p.2) (c.beam i p.1))
          (c.wArrF p.1 p.2) (c.TsysF p.1) = some c.fns.snrLimit →
      p ∉ st.keep →
      p ∉ (iterPointing c i st).keep ∧
        st.brFaint < (iterPointing c i st).brFaint) := by
  constructor
  · intro sv scin srcs r hmem hreg hsnr hu
    unfold runOneOff
    dsimp only
    rw [List.mem_filter, List.mem_filter, List.mem_filter]
    refine ⟨⟨⟨hmem, hreg⟩, ?_⟩, by simpa using hu⟩
    rw [hsnr]
    simp
  · intro c i st p hp hsnr hkeep
    have hsnrval : (iterPointing c i st).snr p.1 p.2 = some c.fns.snrLimit := by
      rw [iterPointing_snr_mem c i st p hp, hsnr]
    have hfail : snrAbove c.fns.snrLimit
        ((iterPointing c i st).snr p.1 p.2) = false := by
      rw [hsnrval]
      simp [snrAbove]
    constructor
    · rw [iterPointing_keep_eq, List.mem_append]
      rintro (h | h)
      · exact hkeep h
      · have hthis := (List.mem_filter.mp h).2
        rw [hfail] at hthis
        exact absurd hthis (by decide)
    · rw [iterPointing_brFaint_eq]
      have hlt := length_filter_lt_of_mem
        (fun q : ℕ × ℕ => snrAbove c.fns.snrLimit
          ((iterPointing c i st).snr q.1 q.2)) hp hfail
      omega

/-- Witness for `C10_threshold_asymmetry`: a one-off source at exactly
the limit is detected, while a repeater burst at exactly the limit is
dropped and counted too faint. -/
theorem C10_threshold_asymmetry_witness :
    ((c10r ∈ [c10r] ∧
        witnessSvFns.inRegion c10r.ra c10r.dec c10r.gl c10r.gb = true ∧
        oneOffSnr witnessSvFns false c10r = witnessSvFns.snrLimit ∧
        c10r.u ≤ 1 / (1 + c10r.z)) ∧
      c10r ∈ (runOneOff witnessSvFns false [c10r]).frbs) ∧
    (((0, 0) ∈ windowTp witnessCtx 0 ∧
        witnessCtx.fns.calcSnr
            (omul (c10st.sPeak 0 0) (witnessCtx.beam 0 0))
            (witnessCtx.wArrF 0 0) (witnessCtx.TsysF 0)
          = some witnessCtx.fns.snrLimit ∧
        (0, 0) ∉ c10st.keep) ∧
      ((0, 0) ∉ (iterPointing witnessCtx 0 c10st).keep ∧
        c10st.brFaint < (iterPointing witnessCtx 0 c10st).brFaint)) :=
  ⟨⟨⟨by decide, by decide, by decide, by decide⟩,
      C10_threshold_asymmetry.1 witnessSvFns false [c10r] c10r
        (by decide) (by decide) (by decide) (by decide)⟩,
    ⟨⟨by decide, by decide, by decide⟩,
      C10_threshold_asymmetry.2 witnessCtx 0 c10st (0, 0)
        (by decide) (by decide) (by decide)⟩⟩

lemma sum_map_add {β : Type _} (l : List β) (g h : β → ℕ) :
    (l.map (fun b => g b + h b)).sum = (l.map g).sum + (l.map h).sum := by
  induction l with
  | nil => rfl
  | cons b l ih =>
    simp only [List.map_cons, List.sum_cons, ih]
    omega

lemma sum_map_swap {α β : Type _} (l1 : List α) (l2 : List β) (f : α → β → ℕ) :
    (l1.map (fun a => (l2.map (f a)).sum)).sum
      = (l2.map (fun b => (l1.map (fun a => f a b)).sum)).sum := by
  induction l1 with
  | nil =>
    simp only [List.map_nil, List.sum_nil]
    induction l2 with
    | nil => rfl
    | cons b l2 ih =>
      simp only [List.map_cons, List.sum_cons, ← ih]
      omega
  | cons a l1 ih =>
    simp only [List.map_cons, List.sum_cons, ih, ← sum_map_add]

lemma sum_map_filter_split {α : Type _} (q : α → Bool) (f : α → ℕ)
    (l : List α) :
    (l.map f).sum = ((l.filter q).map f).sum
      + ((l.filter (fun a => !(q a))).map f).sum := by
  induction l with
  | nil => rfl
  | cons a l ih =>
    cases h : q a <;>
      simp only [List.map_cons, List.sum_cons, List.filter_cons, h, ih,
        Bool.not_false, Bool.not_true, cond_true, cond_false, ite_true,
        ite_false, Bool.false_eq_true, Bool.true_eq_false] <;>
      omega

lemma sum_map_eq_sum_filter {α : Type _} (q : α → Bool) (f : α → ℕ)
    (l : List α) (h0 : ∀ a ∈ l, q a = false → f a = 0) :
    (l.map f).sum = ((l.filter q).map f).sum := by
  induction l with
  | nil => rfl
  | cons a l ih =>
    have ih' := ih (fun a ha => h0 a (List.mem_cons_of_mem _ ha))
    cases h : q a
    · simp only [List.map_cons, List.sum_cons, List.filter_cons, h,
        Bool.false_eq_true, ite_false, ih', h0 a (List.mem_cons_self a l) h]
      omega
    · simp only [List.map_cons, List.sum_cons, List.filter_cons, h,
        ite_true, ih']

lemma length_filter_add_length_filter_not {α : Type _} (q : α → Bool)
    (l : List α) :
    (l.filter q).length + (l.filter (fun a => !(q a))).length = l.length := by
  rw [← List.countP_eq_length_filter, ← List.countP_eq_length_filter]
  have := countP_not_add_countP q l
  omega

lemma windowTIx_length {c : RepCtx} (hs : ∀ row ∈ c.timeM, rowSorted row)
    (i : ℕ) :
    (windowTIx c i).length
      = (c.timeM.map (fun row => row.countP
          (cellInHO ((i : ℚ) * c.tObs) (((i : ℚ) + 1) * c.tObs)))).sum := by
  unfold windowTIx
  rw [fastWhere_eq_bruteWhereHalfOpen _ _ _ hs, length_bruteWhereHalfOpen]

lemma windowTp_add_windowTnp (c : RepCtx) (i : ℕ) :
    (windowTp c i).length + (windowTnp c i).length
      = (windowTIx c i).length :=
  length_filter_add_length_filter_not _ _

lemma iterPointing_measure (c : RepCtx) (i : ℕ) (st : RepState) :
    (iterPointing c i st).brPointing + (iterPointing c i st).brFaint
        + (iterPointing c i st).keep.length
      = st.brPointing + st.brFaint + st.keep.length
        + (windowTIx c i).length := by
  rw [iterPointing_brPointing_eq, iterPointing_brFaint_eq,
    iterPointing_keep_eq, List.length_append]
  have h1 := List.length_filter_le
    (fun p : ℕ × ℕ => snrAbove c.fns.snrLimit
      ((iterPointing c i st).snr p.1 p.2)) (windowTp c i)
  have h2 := windowTp_add_windowTnp c i
  omega

lemma loopState_measure (c : RepCtx) (sPeak0 : ℕ → ℕ → Option ℚ) :
    ∀ k, (loopState c sPeak0 k).brPointing + (loopState c sPeak0 k).brFaint
        + (loopState c sPeak0 k).keep.length
      = ((List.range k).map (fun i => (windowTIx c i).length)).sum := by
  intro k
  induction k with
  | zero => rfl
  | succ k ih =>
    rw [loopState_succ, List.range_succ, List.map_append, List.sum_append]
    have h1 := iterPointing_measure c k (loopState c sPeak0 k)
    simp only [List.map_cons, List.map_nil, List.sum_cons, List.sum_nil]
    omega

lemma countP_cellInHO_windows (d : ℚ) (hd : 0 < d)
    (row : List (Option ℚ)) :
    ∀ n : ℕ, ((List.range n).map (fun i : ℕ =>
        row.countP (cellInHO ((i : ℚ) * d) (((i : ℚ) + 1) * d)))).sum
      = row.countP (cellInHO 0 ((n : ℚ) * d)) := by
  intro n
  induction n with
  | zero =>
    simp only [List.range_zero, List.map_nil, List.sum_nil]
    symm
    rw [List.countP_eq_zero]
    intro cc _
    cases cc with
    | none => simp [cellInHO]
    | some t =>
      simp only [cellInHO, Nat.cast_zero, zero_mul, Bool.and_eq_true,
        decide_eq_true_eq]
      rintro ⟨h1, h2⟩
      exact absurd (lt_of_le_of_lt h1 h2) (lt_irrefl 0)
  | succ n ih =>
    rw [List.range_succ, List.map_append, List.sum_append]
    simp only [List.map_cons, List.map_nil, List.sum_cons, List.sum_nil,
      Nat.add_zero]
    rw [ih]
    have hnn : (0 : ℚ) ≤ (n : ℚ) * d := by positivity
    have hcov : ∀ cc : Option ℚ, cellInHO 0 (((n : ℕ) + 1 : ℕ) * d) cc
        = (cellInHO 0 ((n : ℚ) * d) cc
            || cellInHO ((n : ℚ) * d) (((n : ℚ) + 1) * d) cc) := by
      intro cc
      cases cc with
      | none => rfl
      | some t =>
        push_cast
        simp only [cellInHO]
        rcases lt_or_le t ((n : ℚ) * d) with h | h
        · have hlt : t < ((n : ℚ) + 1) * d := by nlinarith
          simp [h, hlt, not_le.mpr h]
        · have h0 : (0 : ℚ) ≤ t := le_trans hnn h
          simp [h0, not_lt.mpr h, h]
    have hdisj : ∀ cc : Option ℚ,
        ¬(cellInHO 0 ((n : ℚ) * d) cc = true
          ∧ cellInHO ((n : ℚ) * d) (((n : ℚ) + 1) * d) cc = true) := by
      intro cc
      cases cc with
      | none => simp [cellInHO]
      | some t =>
        simp only [cellInHO, Bool.and_eq_true, decide_eq_true_eq]
        rintro ⟨⟨_, h2⟩, ⟨h3, _⟩⟩
        exact absurd h2 (not_lt.mpr h3)
    rw [countP_split _ _ _ row hcov hdisj]

lemma windowTIx_nodup (c : RepCtx) (i : ℕ) : (windowTIx c i).Nodup :=
  nodup_fastWhere _ _ _

lemma loopState_keep_nodup (c : RepCtx) (sPeak0 : ℕ → ℕ → Option ℚ)
    (hs : ∀ row ∈ c.timeM, rowSorted row) (ht : 0 < c.tObs) :
    ∀ k, (loopState c sPeak0 k).keep.Nodup
      ∧ ∀ p ∈ (loopState c sPeak0 k).keep, ∃ i, i < k ∧ p ∈ windowTIx c i := by
  intro k
  induction k with
  | zero => exact ⟨List.nodup_nil, by intro p hp; cases hp⟩
  | succ k ih =>
    rw [loopState_succ, iterPointing_keep_eq]
    have hkept : ∀ p ∈ (windowTp c k).filter
        (fun p => snrAbove c.fns.snrLimit
          ((iterPointing c k (loopState c sPeak0 k)).snr p.1 p.2)),
        p ∈ windowTIx c k := by
      intro p hp
      exact List.mem_of_mem_filter (List.mem_of_mem_filter hp)
    constructor
    · rw [List.nodup_append]
      refine ⟨ih.1, ((windowTIx_nodup c k).filter _).filter _, ?_⟩
      intro p hp hp'
      obtain ⟨i, hik, hi⟩ := ih.2 p hp
      exact windowTIx_disjoint hs ht (by omega) hi (hkept p hp')
    · intro p hp
      rcases List.mem_append.mp hp with h | h
      · obtain ⟨i, hik, hi⟩ := ih.2 p h
        exact ⟨i, by omega, hi⟩
      · exact ⟨k, by omega, hkept p h⟩

/-- Total burst accounting of the pointing loop: over `nW` windows whose
union is exactly `[0, nW * t_obs)`, every non-NaN burst cell is counted
exactly once as out-of-pointing, too-faint or kept, and the kept pairs
are distinct, so `count_nonzero(snr_mask)` equals their raw count. -/
lemma loop_measure_total (c : RepCtx) (sPeak0 : ℕ → ℕ → Option ℚ) (nW : ℕ)
    (hs : ∀ row ∈ c.timeM, rowSorted row) (ht : 0 < c.tObs)
    (hok : ∀ row ∈ c.timeM, ∀ cc ∈ row,
      cellInHO 0 ((nW : ℚ) * c.tObs) cc = cc.isSome) :
    (loopState c sPeak0 nW).brPointing + (loopState c sPeak0 nW).brFaint
        + (loopState c sPeak0 nW).keep.dedup.length
      = (c.timeM.map (fun row => row.countP (fun cc => cc.isSome))).sum := by
  rw [((loopState_keep_nodup c sPeak0 hs ht nW).1).dedup]
  rw [loopState_measure c sPeak0 nW]
  have h1 : ∀ i ∈ List.range nW, (windowTIx c i).length
      = (c.timeM.map (fun row => row.countP
          (cellInHO ((i : ℚ) * c.tObs) (((i : ℚ) + 1) * c.tObs)))).sum :=
    fun i _ => windowTIx_length hs i
  rw [List.map_congr_left h1]
  rw [sum_map_swap]
  congr 1
  apply List.map_congr_left
  intro row hrow
  rw [countP_cellInHO_windows c.tObs ht row nW]
  exact List.countP_congr (fun cc hcc => by rw [hok row hrow cc hcc])

lemma repCtxOf_timeM (fns : RepFns) (sv : List RepSrc) (t : ℚ) :
    (repCtxOf fns sv t).timeM = sv.map (fun r => r.time) := rfl

lemma repCtxOf_tObs (fns : RepFns) (sv : List RepSrc) (t : ℚ) :
    (repCtxOf fns sv t).tObs = t := rfl

lemma maskCell_cellInHO {T : ℚ} {c : Option ℚ} (h : cellOk T c = true) :
    cellInHO 0 T (maskCell T c) = (maskCell T c).isSome := by
  cases c with
  | none => rfl
  | some t =>
    simp only [cellOk, Bool.and_eq_true, decide_eq_true_eq,
      Bool.not_eq_true', decide_eq_false_iff_not] at h
    by_cases hle : t ≤ T
    · have hlt : t < T := lt_of_le_of_ne hle h.2
      simp [maskCell, hle, cellInHO, h.1, hlt]
    · simp [maskCell, hle, cellInHO]

lemma rowSorted_timeMaskRow (T : ℚ) {row : List (Option ℚ)}
    (h : rowSorted row) : rowSorted (timeMaskRow T row) := by
  unfold rowSorted timeMaskRow
  refine List.Pairwise.map _ ?_ h
  intro a b hab
  cases a with
  | none =>
    cases b with
    | none => exact hab
    | some v => exact absurd hab (by simp [ole])
  | some u =>
    cases b with
    | some v =>
      have huv : u ≤ v := hab
      by_cases hu : u ≤ T <;> by_cases hv : v ≤ T <;>
        simp only [maskCell, hu, hv, ite_true, ite_false]
      · exact huv
      · trivial
      · exact absurd (le_trans huv hv) hu
      · trivial
    | none =>
      by_cases hu : u ≤ T <;>
        simp only [maskCell, hu, ite_true, ite_false] <;> trivial

/-- C3 counterexample: the claim fails as stated.  A single repeating
source outside the survey region has `burst_total = 1`, and its burst is
counted in `out_of_region` — a term the claimed identity omits — so
`too_late + out_of_pointing + too_faint + detected = 0 ≠ 1`. -/
theorem C3_burst_counterexample :
    (runRepeater c3outFns [c3outSrc] 20 86400).br.tot = 1 ∧
    (runRepeater c3outFns [c3outSrc] 20 86400).br.out = 1 ∧
    ¬((runRepeater c3outFns [c3outSrc] 20 86400).br.tot
      = (runRepeater c3outFns [c3outSrc] 20 86400).br.late
        + (runRepeater c3outFns [c3outSrc] 20 86400).br.pointing
        + (runRepeater c3outFns [c3outSrc] 20 86400).br.faint
        + (runRepeater c3outFns [c3outSrc] 20 86400).br.det) :=
  ⟨by decide, by decide, by decide⟩

/-- C3 (amended): for every repeating population whose burst-time rows
are sorted ascending with trailing NaNs and whose real epochs are
nonnegative and avoid the exact final window boundary `times[-1]`, the
burst-level counters after the full repeater pipeline satisfy
`burst_total == out_of_region + too_late + out_of_pointing + too_faint
+ detected` exactly (with `burst_total` the size of the padded 2-D
burst-time field) — the claimed identity needs the `out_of_region` term
added. -/
theorem C3_burst_conservation (fns : RepFns) (srcs : List RepSrc)
    (nDays tObsSec : ℚ) (ht : 0 < tObsSec)
    (hs : ∀ r ∈ srcs, rowSorted r.time)
    (hok : ∀ r ∈ srcs,
      r.time.all (cellOk (lastTime nDays (tObsSec / 86400))) = true) :
    (runRepeater fns srcs nDays tObsSec).br.tot
      = (runRepeater fns srcs nDays tObsSec).br.out
        + (runRepeater fns srcs nDays tObsSec).br.late
        + (runRepeater fns srcs nDays tObsSec).br.pointing
        + (runRepeater fns srcs nDays tObsSec).br.faint
        + (runRepeater fns srcs nDays tObsSec).br.det := by
  have ht' : 0 < tObsSec / 86400 := div_pos ht (by norm_num)
  set tObs := tObsSec / 86400 with htObs
  set T := lastTime nDays tObs with hT
  set SV := repSurvivors fns srcs T with hSV
  set c := repCtxOf fns SV tObs with hc
  set nW := nTimes nDays tObs - 1 with hnW
  -- every surviving row is sorted
  have hsv_mem : ∀ r' ∈ SV, ∃ r ∈ srcs, r'.time = timeMaskRow T r.time := by
    intro r' hr'
    have h1 := List.mem_of_mem_filter hr'
    rw [List.mem_map] at h1
    obtain ⟨r, hr, rfl⟩ := h1
    exact ⟨r, List.mem_of_mem_filter hr, rfl⟩
  have hs' : ∀ row ∈ c.timeM, rowSorted row := by
    intro row hrow
    rw [hc, repCtxOf_timeM] at hrow
    rw [List.mem_map] at hrow
    obtain ⟨r', hr', rfl⟩ := hrow
    obtain ⟨r, hr, heq⟩ := hsv_mem r' hr'
    rw [heq]
    exact rowSorted_timeMaskRow T (hs r hr)
  have hTeq : ((nW : ℕ) : ℚ) * c.tObs = T := by
    rw [hc, hnW, hT]
    rfl
  have hok' : ∀ row ∈ c.timeM, ∀ cc ∈ row,
      cellInHO 0 ((nW : ℚ) * c.tObs) cc = cc.isSome := by
    intro row hrow cc hcc
    rw [hTeq]
    rw [hc, repCtxOf_timeM] at hrow
    rw [List.mem_map] at hrow
    obtain ⟨r', hr', rfl⟩ := hrow
    obtain ⟨r, hr, heq⟩ := hsv_mem r' hr'
    rw [heq] at hcc
    unfold timeMaskRow at hcc
    rw [List.mem_map] at hcc
    obtain ⟨c0, hc0, rfl⟩ := hcc
    have hok0 := hok r hr
    rw [List.all_eq_true] at hok0
    exact maskCell_cellInHO (hok0 c0 hc0)
  have hloop := loop_measure_total c (repSPeak0 SV) nW hs'
    (by rw [hc, repCtxOf_tObs]; exact ht') hok'
  -- convert the loop total to a sum over the surviving sources
  rw [hc, repCtxOf_timeM, List.map_map] at hloop
  rw [show ((fun row : List (Option ℚ) =>
      row.countP (fun cc => cc.isSome)) ∘ fun r : RepSrc => r.time)
      = fun r : RepSrc => r.time.countP (fun cc => cc.isSome) from rfl] at hloop
  rw [← hc] at hloop
  -- from the survivors back to all in-region sources
  have hzero : ∀ r' ∈ (regionKept fns srcs).map (maskSrc T),
      (fun r : RepSrc => r.time.any (fun cb => cb.isSome)) r' = false →
      (fun r : RepSrc => r.time.countP (fun cc => cc.isSome)) r' = 0 := by
    intro r' _ hfalse
    dsimp only at hfalse ⊢
    rw [List.countP_eq_zero]
    intro cc hcc
    rw [List.any_eq_false] at hfalse
    exact fun hsome => hfalse cc hcc (by rw [hsome])
  have hsv_sum : (SV.map
        (fun r : RepSrc => r.time.countP (fun cc => cc.isSome))).sum
      = ((regionKept fns srcs).map
          (fun r => (timeMaskRow T r.time).countP (fun cc => cc.isSome))).sum := by
    rw [hSV]
    unfold repSurvivors
    rw [← sum_map_eq_sum_filter
      (fun r : RepSrc => r.time.any (fun cb => cb.isSome))
      (fun r : RepSrc => r.time.countP (fun cc => cc.isSome))
      ((regionKept fns srcs).map (maskSrc T)) hzero]
    rw [List.map_map]
    rfl
  -- per-source split of the non-NaN count
  have hsplit : ((regionKept fns srcs).map nBursts).sum
      = ((regionKept fns srcs).map
          (fun r => (timeMaskRow T r.time).countP (fun cc => cc.isSome))).sum
        + ((regionKept fns srcs).map
            (fun r => r.time.countP (cellAfter T))).sum := by
    rw [← sum_map_add]
    apply congrArg
    apply List.map_congr_left
    intro r _
    exact nBursts_split T r
  have hdrop : ((regionKept fns srcs).map (fun r =>
      nBursts r - (timeMaskRow T r.time).countP (fun c => c.isSome))).sum
      = ((regionKept fns srcs).map
          (fun r => r.time.countP (cellAfter T))).sum := by
    apply congrArg
    apply List.map_congr_left
    intro r _
    have := nBursts_split T r
    omega
  -- region split of the non-NaN count
  have hregion : (srcs.map nBursts).sum
      = ((regionKept fns srcs).map nBursts).sum
        + ((srcs.filter
            (fun r => !(fns.inRegion r.ra r.dec r.gl r.gb))).map nBursts).sum := by
    unfold regionKept
    exact sum_map_filter_split _ nBursts srcs
  -- padded size dominates the non-NaN count
  have htotle : (srcs.map nBursts).sum
      ≤ (srcs.map (fun r => r.time.length)).sum :=
    List.sum_le_sum (fun r _ => List.countP_le_length _)
  -- assemble
  unfold runRepeater
  dsimp only
  rw [← htObs, ← hT, ← hSV, ← hc, ← hnW]
  omega

/-- Witness for `C3_burst_conservation`: one out-of-region source and
one in-region source with two real bursts (one of them beyond the
2-day survey) under one-day pointings. -/
theorem C3_burst_conservation_witness :
    ((0 : ℚ) < 86400 ∧
      (∀ r ∈ [c3outSrc, c3inSrc], rowSorted r.time) ∧
      (∀ r ∈ [c3outSrc, c3inSrc],
        r.time.all (cellOk (lastTime 1 (86400 / 86400))) = true)) ∧
    (runRepeater c3outFns [c3outSrc, c3inSrc] 1 86400).br.tot
      = (runRepeater c3outFns [c3outSrc, c3inSrc] 1 86400).br.out
        + (runRepeater c3outFns [c3outSrc, c3inSrc] 1 86400).br.late
        + (runRepeater c3outFns [c3outSrc, c3inSrc] 1 86400).br.pointing
        + (runRepeater c3outFns [c3outSrc, c3inSrc] 1 86400).br.faint
        + (runRepeater c3outFns [c3outSrc, c3inSrc] 1 86400).br.det :=
  ⟨⟨by decide, by decide, by decide⟩,
    C3_burst_conservation c3outFns [c3outSrc, c3inSrc] 1 86400
      (by decide) (by decide) (by decide)⟩

end Frbpop

